import Mathlib

/-!
Shallow embedding of `src/main.js` (kumo-room): a first-person room viewer
with bounded walking, drag/wheel look, hover highlighting of
"kumoclick_*"-named objects, click-vs-drag resolution, and a smooth
"zoom-to-fit" focus animation that opens a modal on completion.

Modelling conventions:
* JavaScript numbers are modelled as `ℚ` (exact rationals).  The source's
  `±Infinity` sentinel values for the room rectangle (before load) are
  modelled by an `Option Rect` that is `none` before load, so
  `boundsAreFinite` becomes `rect.isSome`; `FLOOR_Y` is initialised to `0`
  in the source and is always finite, so it stays a plain `ℚ`.
* Irrational quantities produced by library trigonometry (`Math.sin`,
  `Math.cos`, `Math.tan`, `MAX_PITCH = π·0.49`, the fov fit factor) are
  passed in as parameters (`fwd`, `look`, `maxPitch`, `fitK`, `viewDir`):
  no claim below depends on their concrete values, only on algebraic
  properties (unit length) that are taken as hypotheses where needed.
* The external collaborators (raycaster hits, world bounding boxes from
  `THREE.Box3.setFromObject`, `performance.now`) are inputs to the
  handlers, exactly as the spec treats them (interface-level).
* `openModal` is modelled by setting the `modalOpen` flag (the `is-open`
  class on the backdrop) and appending the payload to an event log
  `modalOpens`, so "delivered exactly once" is a statement about the log.
-/

namespace KumoRoom

/-- Vector of three rational coordinates, standing in for `THREE.Vector3`. -/
structure Vec3 where
  x : ℚ
  y : ℚ
  z : ℚ
deriving DecidableEq, Repr

/-- Componentwise sum, as `Vector3.add`. -/
def Vec3.add (a b : Vec3) : Vec3 := ⟨a.x + b.x, a.y + b.y, a.z + b.z⟩

/-- Componentwise difference, as `Vector3.sub`. -/
def Vec3.sub (a b : Vec3) : Vec3 := ⟨a.x - b.x, a.y - b.y, a.z - b.z⟩

/-- Scalar multiple, as `Vector3.multiplyScalar`. -/
def Vec3.smul (a : Vec3) (k : ℚ) : Vec3 := ⟨a.x * k, a.y * k, a.z * k⟩

/-- The source's `addScaledVector(v, s)`. -/
def Vec3.addScaled (a b : Vec3) (k : ℚ) : Vec3 := a.add (b.smul k)

/-- Cross product, as `Vector3.crossVectors`. -/
def Vec3.cross (a b : Vec3) : Vec3 :=
  ⟨a.y * b.z - a.z * b.y, a.z * b.x - a.x * b.z, a.x * b.y - a.y * b.x⟩

/-- Squared Euclidean norm (`lengthSq`); kept squared to stay rational. -/
def Vec3.normSq (a : Vec3) : ℚ := a.x * a.x + a.y * a.y + a.z * a.z

/-- The source's `lerpVectors(v1, v2, alpha)`: `v1 + (v2 - v1)·alpha`. -/
def Vec3.lerpV (a b : Vec3) (t : ℚ) : Vec3 :=
  ⟨a.x + (b.x - a.x) * t, a.y + (b.y - a.y) * t, a.z + (b.z - a.z) * t⟩

-- ===== Constants from src/main.js (exact rational values) =====

/-- Naming prefix for clickable objects (`CLICK_PREFIX`). -/
def CLICK_PREFIX : String := "kumoclick_"

/-- Standing eye height (`EYE_HEIGHT = 1.6`). -/
def EYE_HEIGHT : ℚ := 8/5

/-- Vertical padding above the floor (`FLOOR_PADDING = 0.05`). -/
def FLOOR_PADDING : ℚ := 1/20

/-- Horizontal inset from the walls (`WALL_PADDING = 0.20`). -/
def WALL_PADDING : ℚ := 1/5

/-- Distance from camera to the derived look target (`LOOK_DISTANCE = 1.0`). -/
def LOOK_DISTANCE : ℚ := 1

/-- Wheel yaw sensitivity (`YAW_SENS_WHEEL = 0.0022`). -/
def YAW_SENS_WHEEL : ℚ := 22/10000

/-- Wheel walk sensitivity (`WALK_SENS_WHEEL = 0.0025`). -/
def WALK_SENS_WHEEL : ℚ := 25/10000

/-- Drag yaw sensitivity (`DRAG_SENS_YAW = 0.0040`). -/
def DRAG_SENS_YAW : ℚ := 40/10000

/-- Drag pitch sensitivity (`DRAG_SENS_PITCH = 0.0040`). -/
def DRAG_SENS_PITCH : ℚ := 40/10000

/-- Base walking speed (`WALK_SPEED = 1.25`). -/
def WALK_SPEED : ℚ := 5/4

/-- Sprint multiplier (`SPRINT_MULT = 2.0`). -/
def SPRINT_MULT : ℚ := 2

/-- Per-frame delta-time cap applied in `animate`: `Math.min(dt, 0.05)`. -/
def DT_CAP : ℚ := 1/20

-- ===== Bounds model =====

/-- Scalar clamp from the source: `Math.min(max, Math.max(min, v))`. -/
def clamp (v lo hi : ℚ) : ℚ := min hi (max lo v)

/-- Horizontal walkable rectangle (`ROOM_MIN_X .. ROOM_MAX_Z`).  Kept in an
`Option` by the session state: `none` models the pre-load `±Infinity`
sentinels, so `boundsAreFinite` is `Option.isSome`. -/
structure Rect where
  minX : ℚ
  maxX : ℚ
  minZ : ℚ
  maxZ : ℚ
deriving DecidableEq, Repr

/-- XZ clamp of one point against the rectangle, as used by
`clampToRoomXZ` on both the camera position and the controls target:
clamps `x` and `z` independently and never touches `y`. -/
def clampPointXZ (r : Rect) (p : Vec3) : Vec3 :=
  ⟨clamp p.x r.minX r.maxX, p.y, clamp p.z r.minZ r.maxZ⟩

/-- Axis-aligned box, standing in for `THREE.Box3`. -/
structure Box3 where
  min : Vec3
  max : Vec3
deriving DecidableEq, Repr

/-- THREE's `Box3.isEmpty`: the box is empty when `max < min` on any axis. -/
def Box3.isEmpty (b : Box3) : Bool :=
  b.max.x < b.min.x || b.max.y < b.min.y || b.max.z < b.min.z

/-- THREE's `Box3.getCenter` for a non-empty box: `(min + max) / 2`. -/
def Box3.center (b : Box3) : Vec3 := (b.min.add b.max).smul (1/2)

/-- THREE's `Box3.getSize` for a non-empty box: `max - min`. -/
def Box3.size (b : Box3) : Vec3 := b.max.sub b.min

/-- Translation of a box by a vector. -/
def Box3.translate (b : Box3) (v : Vec3) : Box3 := ⟨b.min.add v, b.max.add v⟩

/-- Room bounds derived in the `loader.load` success callback, after the
one-time re-centering of the scene at the origin: the recomputed box of the
translated scene equals the pre-centering box translated by minus its
center, `FLOOR_Y` is its minimum `y`, and the walkable rectangle insets
each horizontal wall by `WALL_PADDING`.  Returns `none` when the
pre-centering box is empty (the callback logs and returns, so `roomLoaded`
never becomes true). -/
def computeRoomBounds (preBox : Box3) : Option (ℚ × Rect) :=
  if preBox.isEmpty then none
  else
    let c := preBox.center
    let box := preBox.translate (c.smul (-1))
    some (box.min.y,
      { minX := box.min.x + WALL_PADDING
        maxX := box.max.x - WALL_PADDING
        minZ := box.min.z + WALL_PADDING
        maxZ := box.max.z - WALL_PADDING })

-- ===== Interactable registry =====

/-- Scene node as the interaction code sees it: a name (the Blender object
name) and the list of material identities referenced by the meshes under it
(`collectMeshesUnder` flattened through `mesh.material`, nulls skipped, in
traversal order).  Material identity is a `ℕ` key standing in for
JavaScript object identity (the `WeakMap` key). -/
structure Node where
  name : String
  mats : List ℕ
deriving DecidableEq, Repr

/-- The source's `isClickableName`: the name, lower-cased, starts with
`CLICK_PREFIX` (the `typeof name === "string"` guard always holds here).
Stated on character lists — lowering the first `|CLICK_PREFIX|` characters
and comparing is exactly `name.toLowerCase().startsWith(CLICK_PREFIX)`. -/
def isClickableName (name : String) : Bool :=
  (name.data.map Char.toLower).take CLICK_PREFIX.data.length =
    CLICK_PREFIX.data

/-- The source's `findClickableRoot` walks the `parent` chain from the hit
object upward until a clickable name is found.  The chain of a hit object
(itself first, then its ancestors) is modelled as a `List Node`. -/
def findClickableRoot : List Node → Option Node
  | [] => none
  | n :: rest => if isClickableName n.name then some n else findClickableRoot rest

-- ===== Hover highlight manager =====

/-- Mutable appearance state of one material.  `emissive`/`color` are
`none` when the material lacks that channel (`mat.emissive` /`mat.color`
undefined); `emissiveIntensity` is `none` when it is not a number.  The
channels' presence never changes at runtime, only the values inside. -/
structure Material where
  emissive : Option ℕ
  emissiveIntensity : Option ℚ
  color : Option ℕ
deriving DecidableEq, Repr

/-- Saved original appearance, the record stored in `highlightState`. -/
structure Snapshot where
  hasEmissive : Bool
  emissiveHex : Option ℕ
  emissiveIntensity : Option ℚ
  colorHex : Option ℕ
deriving DecidableEq, Repr

/-- Snapshot construction from `applyHoverHighlight`'s save branch. -/
def snapshotOf (m : Material) : Snapshot :=
  { hasEmissive := m.emissive.isSome
    emissiveHex := m.emissive
    emissiveIntensity := m.emissiveIntensity
    colorHex := m.color }

/-- Highlight application (`on` branch): prefer the emissive channel
(fixed hex `0x2a7fff`, intensity `0.9`), else brighten the base color.
`brighten` is the supplied model of `Color.offsetHSL(0, 0, 0.15)` (an
HSL round-trip on floats, passed in as a parameter). -/
def highlightMat (brighten : ℕ → ℕ) (m : Material) : Material :=
  if m.emissive.isSome then
    { m with emissive := some 0x2a7fff, emissiveIntensity := some (9/10) }
  else if m.color.isSome then
    { m with color := m.color.map brighten }
  else m

/-- Restore (`off` branch) of one material from its snapshot. -/
def restoreMat (sv : Snapshot) (m : Material) : Material :=
  if sv.hasEmissive && m.emissive.isSome then
    { m with
      emissive := some (sv.emissiveHex.getD 0x000000)
      emissiveIntensity :=
        match sv.emissiveIntensity with
        | some i => some i
        | none => m.emissiveIntensity }
  else if m.color.isSome && sv.colorHex.isSome then
    { m with color := sv.colorHex }
  else m

/-- Shared highlight bookkeeping: the material store (by identity) and the
`highlightState` map (`WeakMap`, `none` = no entry). -/
structure HL where
  mats : ℕ → Material
  snap : ℕ → Option Snapshot

/-- One loop iteration of `applyHoverHighlight` with `on = true`: save the
original once (only when there is no entry yet), then highlight. -/
def hlOn (brighten : ℕ → ℕ) (st : HL) (mid : ℕ) : HL :=
  let m := st.mats mid
  let snap1 := if (st.snap mid).isSome then st.snap
               else Function.update st.snap mid (some (snapshotOf m))
  { mats := Function.update st.mats mid (highlightMat brighten m), snap := snap1 }

/-- One loop iteration of `applyHoverHighlight` with `on = false`: restore
from the saved snapshot when one exists (`if (!saved) continue`); the
snapshot itself is left in place. -/
def hlOff (st : HL) (mid : ℕ) : HL :=
  match st.snap mid with
  | none => st
  | some sv =>
    { st with mats := Function.update st.mats mid (restoreMat sv (st.mats mid)) }

/-- The source's `applyHoverHighlight(root, on)`: no-op on `null`, else the
per-material loop over every material referenced under the root. -/
def applyHoverHighlight (brighten : ℕ → ℕ) (root : Option Node) (enable : Bool)
    (st : HL) : HL :=
  match root with
  | none => st
  | some r => r.mats.foldl (fun acc mid =>
      if enable then hlOn brighten acc mid else hlOff acc mid) st

/-- Hover manager state: the shared material bookkeeping plus the currently
hovered root (`hoveredRoot`). -/
structure Hover where
  hl : HL
  hovered : Option Node

/-- The source's `setHoveredRoot`: identity no-op, else un-highlight the
old root and highlight the new one. -/
def setHoveredRoot (brighten : ℕ → ℕ) (newRoot : Option Node) (h : Hover) :
    Hover :=
  if newRoot = h.hovered then h
  else
    let hl1 := applyHoverHighlight brighten h.hovered false h.hl
    let hl2 := applyHoverHighlight brighten newRoot true hl1
    { hl := hl2, hovered := newRoot }

-- ===== Focus transition =====

/-- Modal payload (`{ title, html }`). -/
structure Payload where
  title : String
  html : String
deriving DecidableEq, Repr

/-- The `focus` record: progress `t` (normalised by `dur`), interpolation
endpoints, and the payload delivered on completion. -/
structure Focus where
  active : Bool
  t : ℚ
  dur : ℚ
  fromPos : Vec3
  fromTarget : Vec3
  toPos : Vec3
  toTarget : Vec3
  openModalOnDone : Option Payload
deriving DecidableEq, Repr

/-- The source's `easeInOutCubic`. -/
def easeInOutCubic (x : ℚ) : ℚ :=
  if x < 1/2 then 4*x*x*x else 1 - (-2*x + 2)*(-2*x + 2)*(-2*x + 2) / 2

/-- Result of `fitCameraToObject` on success. -/
structure Fit where
  desiredPos : Vec3
  desiredTarget : Vec3
deriving DecidableEq, Repr

/-- The source's `fitCameraToObject`: `null` on an empty world box; else
the camera is backed off from the box center along the current view
direction by `radius · fitK`, where `radius = 1.15 · (largest half-extent)`
and `fitK = max(1/sin(fov/2), 1/sin(fovH/2))` is the (irrational)
fov/aspect fit factor, supplied as a parameter together with the camera's
current unit view direction `viewDir` (`camera.getWorldDirection`). -/
def fitCameraToObject (fitK : ℚ) (viewDir : Vec3) (box : Box3) : Option Fit :=
  if box.isEmpty then none
  else
    let center := box.center
    let size := box.size
    let maxHalf := max (size.x * (1/2)) (max (size.y * (1/2)) (size.z * (1/2)))
    let radius := maxHalf * (23/20)
    let dist := radius * fitK
    some { desiredPos := center.addScaled viewDir (-dist)
           desiredTarget := center }

-- ===== Session state and handlers =====

/-- Module-level mutable state of `src/main.js` that the interaction logic
reads and writes.  `rect = none` models the pre-load infinite room bounds;
`modalOpen` is the backdrop's `is-open` class; `modalOpens` is an event
log of `openModal` calls (instrumentation for delivery counting). -/
structure Sys where
  yaw : ℚ
  pitch : ℚ
  camPos : Vec3
  target : Vec3
  dragging : Bool
  lastX : ℚ
  lastY : ℚ
  keys : List String
  floorY : ℚ
  rect : Option Rect
  roomLoaded : Bool
  clickDownX : ℚ
  clickDownY : ℚ
  clickDownTime : ℚ
  focus : Focus
  hover : Hover
  modalOpen : Bool
  modalOpens : List Payload

/-- The source's `boundsAreFinite`: the rectangle fields are finite exactly
when they have been assigned (`rect.isSome`); `FLOOR_Y` only ever holds
finite values (initially `0`). -/
def boundsAreFinite (s : Sys) : Bool := s.rect.isSome

/-- The source's `lockStandingHeight`: pin the camera height to
`FLOOR_Y + FLOOR_PADDING + EYE_HEIGHT`. -/
def lockStandingHeight (s : Sys) (p : Vec3) : Vec3 :=
  { p with y := s.floorY + FLOOR_PADDING + EYE_HEIGHT }

/-- The source's `updateLookTargetFromYawPitch`: target := position plus
the unit look direction (from yaw and pitch, supplied as the trigonometric
parameter `look`) times `LOOK_DISTANCE`. -/
def lookTargetFrom (look : ℚ → ℚ → Vec3) (yaw pitch : ℚ) (pos : Vec3) : Vec3 :=
  pos.addScaled (look yaw pitch) LOOK_DISTANCE

/-- The source's `clampToRoomXZ` applied to a (position, target) pair: a
no-op before the room is loaded or while the bounds are not finite, else
the XZ clamp of both points. -/
def clampToRoomXZ (s : Sys) (pos tgt : Vec3) : Vec3 × Vec3 :=
  if s.roomLoaded then
    match s.rect with
    | some r => (clampPointXZ r pos, clampPointXZ r tgt)
    | none => (pos, tgt)
  else (pos, tgt)

/-- The source's `openModal`: mark the backdrop open and record the
delivered payload. -/
def openModal (p : Payload) (s : Sys) : Sys :=
  { s with modalOpen := true, modalOpens := s.modalOpens ++ [p] }

/-- The source's `startFocus(root, modalPayload)`: compute the fit pose
(`rootBox` is the root's world bounding box, an input from the render
library); on `null` return immediately; else arm the transition, capture
source and destination poses and the payload, and clear the hover
highlight.  `fitK`/`viewDir` are the fit parameters of
`fitCameraToObject`. -/
def startFocus (brighten : ℕ → ℕ) (fitK : ℚ) (viewDir : Vec3) (rootBox : Box3)
    (modalPayload : Option Payload) (s : Sys) : Sys :=
  match fitCameraToObject fitK viewDir rootBox with
  | none => s
  | some fit =>
    { s with
      focus :=
        { active := true
          t := 0
          dur := s.focus.dur
          fromPos := s.camPos
          fromTarget := s.target
          toPos := fit.desiredPos
          toTarget := fit.desiredTarget
          openModalOnDone := modalPayload }
      hover := setHoveredRoot brighten none s.hover }

/-- The source's `escapeHtml`. -/
def escapeHtml (str : String) : String :=
  (((((str.replace "&" "&amp;").replace "<" "&lt;").replace ">" "&gt;").replace
    "\"" "&quot;").replace (String.singleton (Char.ofNat 39)) "&#039;")

/-- Modal payload built in the `pointerup` handler for a clicked root. -/
def clickPayload (rootName slug : String) : Payload :=
  { title := if slug = "" then "Object" else slug
    html := "\n      <p><b>Clicked:</b> <code>" ++ escapeHtml rootName ++
      "</code></p>\n      <p><b>Slug:</b> <code>" ++ escapeHtml slug ++
      "</code></p>\n      <p>This is placeholder content. Later you can fetch WordPress content by slug.</p>\n      <p><code>/wp-json/...</code> using slug <code>" ++
      escapeHtml slug ++ "</code></p>\n    " }

/-- Drag-to-look `pointermove` handler.  `maxPitch` models the irrational
`MAX_PITCH = π·0.49`; `look` models the yaw/pitch unit look direction. -/
def onDragMove (look : ℚ → ℚ → Vec3) (maxPitch : ℚ) (cx cy : ℚ) (s : Sys) :
    Sys :=
  if !s.dragging || !s.roomLoaded || s.focus.active then s
  else
    let dx := cx - s.lastX
    let dy := cy - s.lastY
    let yaw1 := s.yaw + (-dx) * DRAG_SENS_YAW
    let pitch1 := clamp (s.pitch + (-dy) * DRAG_SENS_PITCH) (-maxPitch) maxPitch
    { s with
      lastX := cx, lastY := cy, yaw := yaw1, pitch := pitch1
      target := lookTargetFrom look yaw1 pitch1 s.camPos }

/-- Wheel handler: swallow pinch (`ctrlKey`), else yaw from the horizontal
delta and a forward/backward walk step from the (reversed) vertical delta,
followed by standing lock, look-target update, and XZ clamping.  `fwd`
models `getForwardXZFromYaw` (unit horizontal forward from yaw). -/
def onWheel (fwd : ℚ → Vec3) (look : ℚ → ℚ → Vec3) (ctrlKey : Bool)
    (dx dy : ℚ) (s : Sys) : Sys :=
  if ctrlKey then s
  else if !s.roomLoaded || s.focus.active then s
  else
    let yaw1 := s.yaw + (-dx) * YAW_SENS_WHEEL
    let step := (-dy) * WALK_SENS_WHEEL
    let pos1 := lockStandingHeight s ((s.camPos).addScaled (fwd yaw1) step)
    let tgt1 := lookTargetFrom look yaw1 s.pitch pos1
    let pt := clampToRoomXZ s pos1 tgt1
    { s with yaw := yaw1, camPos := pt.1, target := pt.2 }

/-- Hover `pointermove` handler.  The raycast against `clickableMeshes`
and the walk up to the clickable root are external inputs summarised by
`hitRoot` (`none` when nothing was hit or no ancestor was clickable). -/
def onHoverMove (brighten : ℕ → ℕ) (hitRoot : Option Node) (s : Sys) : Sys :=
  if !s.roomLoaded || s.focus.active then s
  else { s with hover := setHoveredRoot brighten hitRoot s.hover }

/-- Click-resolving `pointerup` handler.  `cx`/`cy` is the up position,
`nowMs` is `performance.now()`, `hitChain` is the ancestor chain of the
nearest raycast hit (empty when nothing was hit), and `rootBox` is the
world bounding box of whichever root the chain resolves to.  The distance
guard `hypot(dx, dy) > 6` is stated on squares (`dx² + dy² > 36`), which is
equivalent for real inputs. -/
def onPointerUp (brighten : ℕ → ℕ) (fitK : ℚ) (viewDir : Vec3)
    (cx cy nowMs : ℚ) (hitChain : List Node) (rootBox : Box3) (s : Sys) :
    Sys :=
  if !s.roomLoaded || s.focus.active then s
  else if s.modalOpen then s
  else
    let dx := cx - s.clickDownX
    let dy := cy - s.clickDownY
    let distSq := dx * dx + dy * dy
    let dt := nowMs - s.clickDownTime
    if distSq > 36 ∨ dt > 450 then s
    else
      match hitChain with
      | [] => s
      | _ :: _ =>
        match findClickableRoot hitChain with
        | none => s
        | some root =>
          let slug := root.name.drop CLICK_PREFIX.length
          startFocus brighten fitK viewDir rootBox
            (some (clickPayload root.name slug)) s

-- ===== Per-frame update (`animate`) =====

/-- Keyboard input sampling (`getMoveInput`): each direction contributes
`1` when any of its bindings is held; `sprint` is the Shift key. -/
structure MoveInput where
  forward : ℚ
  back : ℚ
  left : ℚ
  right : ℚ
  sprint : Bool
deriving DecidableEq, Repr

/-- The source's `getMoveInput` over the held-key set. -/
def getMoveInput (keys : List String) : MoveInput :=
  { forward := if keys.contains "w" || keys.contains "W" ||
        keys.contains "ArrowUp" then 1 else 0
    back := if keys.contains "s" || keys.contains "S" ||
        keys.contains "ArrowDown" then 1 else 0
    left := if keys.contains "a" || keys.contains "A" ||
        keys.contains "ArrowLeft" then 1 else 0
    right := if keys.contains "d" || keys.contains "D" ||
        keys.contains "ArrowRight" then 1 else 0
    sprint := keys.contains "Shift" }

/-- Keyboard-walk displacement for one frame: the source builds
`move = dirForward·(moveZ·speed·dt) + dirRight·(moveX·speed·dt)` where
`dirRight = cross(dirForward, (0,1,0)).normalize()`; for the unit
horizontal `dirForward` of `getForwardXZFromYaw` the cross product is
already unit, so normalisation is the identity and is omitted here. -/
def walkMove (dirForward : Vec3) (inp : MoveInput) (dt : ℚ) : Vec3 :=
  let moveZ := inp.forward - inp.back
  let moveX := inp.right - inp.left
  let dirRight := dirForward.cross ⟨0, 1, 0⟩
  let speed := WALK_SPEED * (if inp.sprint then SPRINT_MULT else 1)
  ((Vec3.mk 0 0 0).addScaled dirForward (moveZ * speed * dt)).addScaled
    dirRight (moveX * speed * dt)

/-- One `animate` frame with raw clock delta `rawDt`: cap the delta at
`0.05`, then (when the room is loaded with finite bounds) either advance
the focus animation — eased interpolation, XZ clamp, and on completion
deactivate and deliver the pending payload — or run the keyboard walk
followed by standing lock, look-target update, and XZ clamp.
`controls.update()` and rendering mutate no modelled state (all
OrbitControls interactions are disabled). -/
def animateTick (fwd : ℚ → Vec3) (look : ℚ → ℚ → Vec3) (rawDt : ℚ)
    (s : Sys) : Sys :=
  let dt := min rawDt DT_CAP
  if s.roomLoaded && boundsAreFinite s then
    if s.focus.active then
      let t1 := s.focus.t + dt / s.focus.dur
      let a := easeInOutCubic (min 1 t1)
      let pos1 := (s.focus.fromPos).lerpV s.focus.toPos a
      let tgt1 := (s.focus.fromTarget).lerpV s.focus.toTarget a
      let pt := clampToRoomXZ s pos1 tgt1
      if t1 >= 1 then
        let s1 := { s with camPos := pt.1, target := pt.2
                           focus := { s.focus with t := t1, active := false } }
        match s1.focus.openModalOnDone with
        | some p => openModal p s1
        | none => s1
      else
        { s with camPos := pt.1, target := pt.2
                 focus := { s.focus with t := t1 } }
    else
      let inp := getMoveInput s.keys
      let moveZ := inp.forward - inp.back
      let moveX := inp.right - inp.left
      let pos1 := if moveZ ≠ 0 || moveX ≠ 0 then
          (s.camPos).add (walkMove (fwd s.yaw) inp dt)
        else s.camPos
      let pos2 := lockStandingHeight s pos1
      let tgt2 := lookTargetFrom look s.yaw s.pitch pos2
      let pt := clampToRoomXZ s pos2 tgt2
      { s with camPos := pt.1, target := pt.2 }
  else s

/-- Folding `animateTick` over a list of raw frame deltas. -/
def runTicks (fwd : ℚ → Vec3) (look : ℚ → ℚ → Vec3) (s : Sys)
    (dts : List ℚ) : Sys :=
  dts.foldl (fun acc d => animateTick fwd look d acc) s

-- ===== Concrete sample data (used by witnesses and counterexamples) =====

/-- An idle focus record with the source's default duration `0.55`. -/
def idleFocus : Focus :=
  { active := false, t := 0, dur := 11/20
    fromPos := ⟨0, 0, 0⟩, fromTarget := ⟨0, 0, 0⟩
    toPos := ⟨0, 0, 0⟩, toTarget := ⟨0, 0, 0⟩
    openModalOnDone := none }

/-- A hover state with no hovered root, every material a bare emissive
standard material, and no snapshots. -/
def freshHover : Hover :=
  { hl := { mats := fun _ => ⟨some 0x111111, some 1, some 0x808080⟩
            snap := fun _ => none }
    hovered := none }

/-- A loaded session standing at the origin of a `[-5, 5]²` room. -/
def sampleSys : Sys :=
  { yaw := 0, pitch := 0, camPos := ⟨0, 17/10, 0⟩, target := ⟨0, 17/10, -1⟩
    dragging := false, lastX := 0, lastY := 0, keys := []
    floorY := 0, rect := some ⟨-5, 5, -5, 5⟩, roomLoaded := true
    clickDownX := 100, clickDownY := 100, clickDownTime := 0
    focus := idleFocus, hover := freshHover
    modalOpen := false, modalOpens := [] }

/-- A session at the moment `startFocus` armed a transition toward a fit
pose outside the east wall (`toPos.x = 6 > maxX = 5`), with duration
`0.05` and a pending completion payload. -/
def focusSys : Sys :=
  { sampleSys with
    focus := { active := true, t := 0, dur := 1/20
               fromPos := ⟨0, 17/10, 0⟩, fromTarget := ⟨0, 17/10, -1⟩
               toPos := ⟨6, 2, 0⟩, toTarget := ⟨6, 2, -1⟩
               openModalOnDone := some ⟨"door", ""⟩ } }

/-- A loaded session with forward + right + sprint held and an active
focus transition. -/
def walkSys : Sys :=
  { sampleSys with
    keys := ["w", "d", "Shift"]
    focus := { idleFocus with active := true } }

/-- Forward-direction sample for yaw = 0: `(sin 0, 0, -cos 0)`. -/
def fwd0 : ℚ → Vec3 := fun _ => ⟨0, 0, -1⟩

/-- Look-direction sample for yaw = pitch = 0. -/
def look0 : ℚ → ℚ → Vec3 := fun _ _ => ⟨0, 0, -1⟩

-- ===== Proof-side notions about highlight bookkeeping =====

/-- Relation between a material's original value and its current value
while highlight passes run over it: channel presence is unchanged, the
base color is untouched for emissive-capable materials, and the emissive
pair is untouched for emissive-less materials.  Both the original value
and every highlighted value satisfy it, and it is exactly what the
snapshot-restore branch needs to reproduce the original. -/
def Inv (orig cur : Material) : Prop :=
  cur.emissive.isSome = orig.emissive.isSome ∧
  cur.color.isSome = orig.color.isSome ∧
  (orig.emissive.isSome = true → cur.color = orig.color) ∧
  (orig.emissive.isSome = false →
    cur.emissive = orig.emissive ∧
      cur.emissiveIntensity = orig.emissiveIntensity)

/-- State of the bookkeeping for material `M` after it has been
highlighted at least once while its original value was `orig`: the stored
snapshot is the snapshot of `orig` (never overwritten), and the current
value is reachable from `orig` by highlight/restore passes. -/
def GoodAt (orig : Material) (M : ℕ) (st : HL) : Prop :=
  st.snap M = some (snapshotOf orig) ∧ Inv orig (st.mats M)

/-- Well-formed material in the sense of the rendering library: an
emissive-capable material always carries a numeric `emissiveIntensity`. -/
def WfMat (m : Material) : Prop :=
  m.emissive.isSome = true → m.emissiveIntensity.isSome = true

instance (m : Material) : Decidable (WfMat m) :=
  inferInstanceAs
    (Decidable (m.emissive.isSome = true → m.emissiveIntensity.isSome = true))

/-- Hover target that does not reference material `M`: `none`, or a root
whose material list avoids `M`. -/
def avoidsMat (M : ℕ) : Option Node → Prop
  | none => True
  | some r => M ∉ r.mats

instance (M : ℕ) (o : Option Node) : Decidable (avoidsMat M o) :=
  match o with
  | none => isTrue trivial
  | some r => inferInstanceAs (Decidable (M ∉ r.mats))

-- ===== Helper lemmas =====

/-- Scalar clamp is idempotent on an ordered interval. -/
theorem clamp_idem (v lo hi : ℚ) (h : lo ≤ hi) :
    clamp (clamp v lo hi) lo hi = clamp v lo hi := by
  simp only [clamp, min_def, max_def]
  split_ifs <;> linarith

/-- XZ point clamp is idempotent on an ordered rectangle. -/
theorem clampPointXZ_idem (r : Rect) (p : Vec3) (hx : r.minX ≤ r.maxX)
    (hz : r.minZ ≤ r.maxZ) :
    clampPointXZ r (clampPointXZ r p) = clampPointXZ r p := by
  simp only [clampPointXZ]
  rw [clamp_idem _ _ _ hx, clamp_idem _ _ _ hz]

-- ===== C9 =====

/-- C9: for any point and any bounds with `minX ≤ maxX` and `minZ ≤ maxZ`,
clamping is idempotent — for the scalar `clamp`, for the XZ point clamp,
and for `clampToRoomXZ` applied to the camera position / look target
pair. -/
theorem c9_clamp_idempotent (v lo hi : ℚ) (hlohi : lo ≤ hi) (r : Rect)
    (hx : r.minX ≤ r.maxX) (hz : r.minZ ≤ r.maxZ) (p : Vec3) (s : Sys)
    (hr : s.rect = some r) (pos tgt : Vec3) :
    clamp (clamp v lo hi) lo hi = clamp v lo hi ∧
    clampPointXZ r (clampPointXZ r p) = clampPointXZ r p ∧
    clampToRoomXZ s (clampToRoomXZ s pos tgt).1 (clampToRoomXZ s pos tgt).2 =
      clampToRoomXZ s pos tgt := by
  refine ⟨clamp_idem v lo hi hlohi, clampPointXZ_idem r p hx hz, ?_⟩
  simp only [clampToRoomXZ, hr]
  cases s.roomLoaded <;>
    simp [clampPointXZ_idem r _ hx hz]

/-- Witness for `c9_clamp_idempotent` at concrete inputs: the spec's
scenario bounds `[-5, 5]²` and a camera at `x = 6`. -/
theorem c9_clamp_idempotent_witness :
    clamp (clamp 7 0 5) 0 5 = clamp 7 0 5 ∧
    clampPointXZ ⟨-5, 5, -5, 5⟩ (clampPointXZ ⟨-5, 5, -5, 5⟩ ⟨6, 1, -9⟩) =
      clampPointXZ ⟨-5, 5, -5, 5⟩ ⟨6, 1, -9⟩ ∧
    clampToRoomXZ sampleSys
        (clampToRoomXZ sampleSys ⟨6, 1, 0⟩ ⟨6, 1, -1⟩).1
        (clampToRoomXZ sampleSys ⟨6, 1, 0⟩ ⟨6, 1, -1⟩).2 =
      clampToRoomXZ sampleSys ⟨6, 1, 0⟩ ⟨6, 1, -1⟩ :=
  c9_clamp_idempotent 7 0 5 (by norm_num) ⟨-5, 5, -5, 5⟩ (by norm_num)
    (by norm_num) ⟨6, 1, -9⟩ sampleSys rfl ⟨6, 1, 0⟩ ⟨6, 1, -1⟩

-- ===== Bounds non-mutation lemmas =====

/-- The drag-to-look handler never writes the bounds state. -/
theorem onDragMove_bounds (look : ℚ → ℚ → Vec3) (maxPitch cx cy : ℚ)
    (s : Sys) :
    ((onDragMove look maxPitch cx cy s).floorY,
      (onDragMove look maxPitch cx cy s).rect,
      (onDragMove look maxPitch cx cy s).roomLoaded) =
      (s.floorY, s.rect, s.roomLoaded) := by
  simp only [onDragMove]
  split <;> rfl

/-- The wheel handler never writes the bounds state. -/
theorem onWheel_bounds (fwd : ℚ → Vec3) (look : ℚ → ℚ → Vec3)
    (ctrlKey : Bool) (dx dy : ℚ) (s : Sys) :
    ((onWheel fwd look ctrlKey dx dy s).floorY,
      (onWheel fwd look ctrlKey dx dy s).rect,
      (onWheel fwd look ctrlKey dx dy s).roomLoaded) =
      (s.floorY, s.rect, s.roomLoaded) := by
  simp only [onWheel]
  split
  · rfl
  · split <;> rfl

/-- The hover handler never writes the bounds state. -/
theorem onHoverMove_bounds (brighten : ℕ → ℕ) (hitRoot : Option Node)
    (s : Sys) :
    ((onHoverMove brighten hitRoot s).floorY,
      (onHoverMove brighten hitRoot s).rect,
      (onHoverMove brighten hitRoot s).roomLoaded) =
      (s.floorY, s.rect, s.roomLoaded) := by
  simp only [onHoverMove]
  split <;> rfl

/-- `openModal` never writes the bounds state. -/
theorem openModal_bounds (p : Payload) (s : Sys) :
    ((openModal p s).floorY, (openModal p s).rect,
      (openModal p s).roomLoaded) = (s.floorY, s.rect, s.roomLoaded) := rfl

/-- `startFocus` never writes the bounds state. -/
theorem startFocus_bounds (brighten : ℕ → ℕ) (fitK : ℚ) (viewDir : Vec3)
    (rootBox : Box3) (payload : Option Payload) (s : Sys) :
    ((startFocus brighten fitK viewDir rootBox payload s).floorY,
      (startFocus brighten fitK viewDir rootBox payload s).rect,
      (startFocus brighten fitK viewDir rootBox payload s).roomLoaded) =
      (s.floorY, s.rect, s.roomLoaded) := by
  simp only [startFocus]
  split <;> rfl

/-- The click-resolving pointer-up handler never writes the bounds
state. -/
theorem onPointerUp_bounds (brighten : ℕ → ℕ) (fitK : ℚ) (viewDir : Vec3)
    (cx cy nowMs : ℚ) (hitChain : List Node) (rootBox : Box3) (s : Sys) :
    ((onPointerUp brighten fitK viewDir cx cy nowMs hitChain rootBox
        s).floorY,
      (onPointerUp brighten fitK viewDir cx cy nowMs hitChain rootBox
        s).rect,
      (onPointerUp brighten fitK viewDir cx cy nowMs hitChain rootBox
        s).roomLoaded) = (s.floorY, s.rect, s.roomLoaded) := by
  simp only [onPointerUp]
  split
  · rfl
  · split
    · rfl
    · split
      · rfl
      · split
        · rfl
        · split
          · rfl
          · exact startFocus_bounds brighten fitK viewDir rootBox _ s

/-- A frame of the per-frame update never writes the bounds state, in
both the focus branch (including its modal delivery) and the walk
branch. -/
theorem animateTick_bounds (fwd : ℚ → Vec3) (look : ℚ → ℚ → Vec3)
    (rawDt : ℚ) (s : Sys) :
    ((animateTick fwd look rawDt s).floorY,
      (animateTick fwd look rawDt s).rect,
      (animateTick fwd look rawDt s).roomLoaded) =
      (s.floorY, s.rect, s.roomLoaded) := by
  simp only [animateTick]
  split
  · split
    · split
      · split <;> rfl
      · rfl
    · rfl
  · rfl

-- ===== C5 =====

/-- C5 counterexample: a successfully loaded scene whose extent along X is
`0.1 < 2 · WALL_PADDING` produces bounds with `minX = 3/20 > -3/20 = maxX`,
refuting the claimed unconditional `minX ≤ maxX` invariant. -/
theorem c5_counterexample :
    computeRoomBounds ⟨⟨0, 0, 0⟩, ⟨1/10, 1, 1⟩⟩ =
        some (-(1/2), { minX := 3/20, maxX := -(3/20), minZ := -(3/10)
                        maxZ := 3/10 }) ∧
      (-(3/20) : ℚ) < 3/20 := by
  constructor
  · norm_num [computeRoomBounds, Box3.isEmpty, Box3.center, Box3.translate,
      Vec3.add, Vec3.smul, WALL_PADDING]
  · norm_num

/-- C5 (amended): for a non-empty loaded scene whose extent along each
horizontal axis is at least twice the wall padding, the bounds exist (and
in this exact-rational model are automatically finite) and satisfy
`minX ≤ maxX` and `minZ ≤ maxZ`; moreover the bounds state — `floorY`,
the room rectangle, and the room-loaded flag — is assigned only in the
load callback: every modeled mutator (the drag, wheel, hover, and
pointer-up handlers, `startFocus`, `openModal`, and the per-frame update)
leaves it unchanged on every state. -/
theorem c5_bounds_wellformed (preBox : Box3) (hne : preBox.isEmpty = false)
    (hx : 2 * WALL_PADDING ≤ preBox.max.x - preBox.min.x)
    (hz : 2 * WALL_PADDING ≤ preBox.max.z - preBox.min.z)
    (look : ℚ → ℚ → Vec3) (fwd : ℚ → Vec3) (brighten : ℕ → ℕ)
    (maxPitch cx cy wdx wdy nowMs rawDt fitK : ℚ) (ctrlKey : Bool)
    (hitRoot : Option Node) (hitChain : List Node) (rootBox : Box3)
    (viewDir : Vec3) (payload : Option Payload) (p : Payload) (s : Sys) :
    (∃ fl r, computeRoomBounds preBox = some (fl, r) ∧
      r.minX ≤ r.maxX ∧ r.minZ ≤ r.maxZ) ∧
    ((onDragMove look maxPitch cx cy s).floorY,
      (onDragMove look maxPitch cx cy s).rect,
      (onDragMove look maxPitch cx cy s).roomLoaded) =
      (s.floorY, s.rect, s.roomLoaded) ∧
    ((onWheel fwd look ctrlKey wdx wdy s).floorY,
      (onWheel fwd look ctrlKey wdx wdy s).rect,
      (onWheel fwd look ctrlKey wdx wdy s).roomLoaded) =
      (s.floorY, s.rect, s.roomLoaded) ∧
    ((onHoverMove brighten hitRoot s).floorY,
      (onHoverMove brighten hitRoot s).rect,
      (onHoverMove brighten hitRoot s).roomLoaded) =
      (s.floorY, s.rect, s.roomLoaded) ∧
    ((onPointerUp brighten fitK viewDir cx cy nowMs hitChain rootBox
        s).floorY,
      (onPointerUp brighten fitK viewDir cx cy nowMs hitChain rootBox
        s).rect,
      (onPointerUp brighten fitK viewDir cx cy nowMs hitChain rootBox
        s).roomLoaded) = (s.floorY, s.rect, s.roomLoaded) ∧
    ((startFocus brighten fitK viewDir rootBox payload s).floorY,
      (startFocus brighten fitK viewDir rootBox payload s).rect,
      (startFocus brighten fitK viewDir rootBox payload s).roomLoaded) =
      (s.floorY, s.rect, s.roomLoaded) ∧
    ((openModal p s).floorY, (openModal p s).rect,
      (openModal p s).roomLoaded) = (s.floorY, s.rect, s.roomLoaded) ∧
    ((animateTick fwd look rawDt s).floorY,
      (animateTick fwd look rawDt s).rect,
      (animateTick fwd look rawDt s).roomLoaded) =
      (s.floorY, s.rect, s.roomLoaded) := by
  refine ⟨?_, onDragMove_bounds look maxPitch cx cy s,
    onWheel_bounds fwd look ctrlKey wdx wdy s,
    onHoverMove_bounds brighten hitRoot s,
    onPointerUp_bounds brighten fitK viewDir cx cy nowMs hitChain rootBox s,
    startFocus_bounds brighten fitK viewDir rootBox payload s,
    openModal_bounds p s,
    animateTick_bounds fwd look rawDt s⟩
  norm_num [WALL_PADDING] at hx hz
  refine ⟨(preBox.translate ((preBox.center).smul (-1))).min.y,
    { minX := (preBox.translate ((preBox.center).smul (-1))).min.x +
        WALL_PADDING
      maxX := (preBox.translate ((preBox.center).smul (-1))).max.x -
        WALL_PADDING
      minZ := (preBox.translate ((preBox.center).smul (-1))).min.z +
        WALL_PADDING
      maxZ := (preBox.translate ((preBox.center).smul (-1))).max.z -
        WALL_PADDING }, ?_, ?_, ?_⟩
  · simp only [computeRoomBounds, hne, Bool.false_eq_true, if_false]
  · simp only [Box3.translate, Box3.center, Vec3.add, Vec3.smul,
      WALL_PADDING]
    linarith
  · simp only [Box3.translate, Box3.center, Vec3.add, Vec3.smul,
      WALL_PADDING]
    linarith

/-- Witness for `c5_bounds_wellformed`: a 10 × 2 × 10 room, and the
non-mutation conjuncts exercised on the loaded sample session with
concrete handler inputs. -/
theorem c5_bounds_wellformed_witness :
    (∃ fl r, computeRoomBounds ⟨⟨0, 0, 0⟩, ⟨10, 2, 10⟩⟩ = some (fl, r) ∧
      r.minX ≤ r.maxX ∧ r.minZ ≤ r.maxZ) ∧
    ((onDragMove look0 (157/100) 3 4 sampleSys).floorY,
      (onDragMove look0 (157/100) 3 4 sampleSys).rect,
      (onDragMove look0 (157/100) 3 4 sampleSys).roomLoaded) =
      (sampleSys.floorY, sampleSys.rect, sampleSys.roomLoaded) ∧
    ((onWheel fwd0 look0 false 1 2 sampleSys).floorY,
      (onWheel fwd0 look0 false 1 2 sampleSys).rect,
      (onWheel fwd0 look0 false 1 2 sampleSys).roomLoaded) =
      (sampleSys.floorY, sampleSys.rect, sampleSys.roomLoaded) ∧
    ((onHoverMove id none sampleSys).floorY,
      (onHoverMove id none sampleSys).rect,
      (onHoverMove id none sampleSys).roomLoaded) =
      (sampleSys.floorY, sampleSys.rect, sampleSys.roomLoaded) ∧
    ((onPointerUp id 3 ⟨0, 0, -1⟩ 3 4 50 [] ⟨⟨1, 0, 1⟩, ⟨2, 1, 2⟩⟩
        sampleSys).floorY,
      (onPointerUp id 3 ⟨0, 0, -1⟩ 3 4 50 [] ⟨⟨1, 0, 1⟩, ⟨2, 1, 2⟩⟩
        sampleSys).rect,
      (onPointerUp id 3 ⟨0, 0, -1⟩ 3 4 50 [] ⟨⟨1, 0, 1⟩, ⟨2, 1, 2⟩⟩
        sampleSys).roomLoaded) =
      (sampleSys.floorY, sampleSys.rect, sampleSys.roomLoaded) ∧
    ((startFocus id 3 ⟨0, 0, -1⟩ ⟨⟨1, 0, 1⟩, ⟨2, 1, 2⟩⟩ none
        sampleSys).floorY,
      (startFocus id 3 ⟨0, 0, -1⟩ ⟨⟨1, 0, 1⟩, ⟨2, 1, 2⟩⟩ none
        sampleSys).rect,
      (startFocus id 3 ⟨0, 0, -1⟩ ⟨⟨1, 0, 1⟩, ⟨2, 1, 2⟩⟩ none
        sampleSys).roomLoaded) =
      (sampleSys.floorY, sampleSys.rect, sampleSys.roomLoaded) ∧
    ((openModal ⟨"door", ""⟩ sampleSys).floorY,
      (openModal ⟨"door", ""⟩ sampleSys).rect,
      (openModal ⟨"door", ""⟩ sampleSys).roomLoaded) =
      (sampleSys.floorY, sampleSys.rect, sampleSys.roomLoaded) ∧
    ((animateTick fwd0 look0 (1/60) sampleSys).floorY,
      (animateTick fwd0 look0 (1/60) sampleSys).rect,
      (animateTick fwd0 look0 (1/60) sampleSys).roomLoaded) =
      (sampleSys.floorY, sampleSys.rect, sampleSys.roomLoaded) :=
  c5_bounds_wellformed ⟨⟨0, 0, 0⟩, ⟨10, 2, 10⟩⟩
    (by norm_num [Box3.isEmpty]) (by norm_num [WALL_PADDING])
    (by norm_num [WALL_PADDING]) look0 fwd0 id (157/100) 3 4 1 2 50 (1/60) 3
    false none [] ⟨⟨1, 0, 1⟩, ⟨2, 1, 2⟩⟩ ⟨0, 0, -1⟩ none ⟨"door", ""⟩
    sampleSys

-- ===== C6 =====

/-- C6 counterexample: at yaw 0 (`dirForward = (0, 0, -1)`), holding
forward and right (`w` and `d`) for a `0.01 s` frame yields a displacement
whose squared magnitude is `2 · (WALK_SPEED · dt)²`, not
`(WALK_SPEED · dt)²` as the claimed normalisation would give, and strictly
larger than the single-key (`w`) displacement — diagonal movement is
faster, not equal. -/
theorem c6_counterexample :
    (walkMove ⟨0, 0, -1⟩ (getMoveInput ["w", "d"]) (1/100)).normSq ≠
        (WALK_SPEED * (1/100)) * (WALK_SPEED * (1/100)) ∧
      (walkMove ⟨0, 0, -1⟩ (getMoveInput ["w"]) (1/100)).normSq <
        (walkMove ⟨0, 0, -1⟩ (getMoveInput ["w", "d"]) (1/100)).normSq := by
  have hwd : getMoveInput ["w", "d"] = ⟨1, 0, 0, 1, false⟩ := by
    simp [getMoveInput]
  have hw : getMoveInput ["w"] = ⟨1, 0, 0, 0, false⟩ := by
    simp [getMoveInput]
  rw [hwd, hw]
  constructor
  · norm_num [walkMove, Vec3.normSq, Vec3.cross, Vec3.addScaled, Vec3.add,
      Vec3.smul, WALK_SPEED, SPRINT_MULT]
  · norm_num [walkMove, Vec3.normSq, Vec3.cross, Vec3.addScaled, Vec3.add,
      Vec3.smul, WALK_SPEED, SPRINT_MULT]

/-- C6 (amended): the held-key input pair is not normalised; for a unit
horizontal forward direction, the per-frame displacement's squared
magnitude is `(moveZ² + moveX²) · (speed · dt)²` — so a single key moves at
`speed · dt` and a simultaneous forward + sideways hold moves `√2` times
faster, not at the same speed. -/
theorem c6_walk_not_normalized (fx fz : ℚ) (hunit : fx * fx + fz * fz = 1)
    (inp : MoveInput) (dt : ℚ) :
    (walkMove ⟨fx, 0, fz⟩ inp dt).normSq =
      ((inp.forward - inp.back) * (inp.forward - inp.back) +
        (inp.right - inp.left) * (inp.right - inp.left)) *
        ((WALK_SPEED * (if inp.sprint then SPRINT_MULT else 1) * dt) *
          (WALK_SPEED * (if inp.sprint then SPRINT_MULT else 1) * dt)) := by
  simp only [walkMove, Vec3.normSq, Vec3.cross, Vec3.addScaled, Vec3.add,
    Vec3.smul]
  linear_combination (((inp.forward - inp.back) * (inp.forward - inp.back) +
    (inp.right - inp.left) * (inp.right - inp.left)) *
      ((WALK_SPEED * (if inp.sprint then SPRINT_MULT else 1) * dt) *
        (WALK_SPEED * (if inp.sprint then SPRINT_MULT else 1) * dt))) * hunit

/-- Witness for `c6_walk_not_normalized` at yaw 0 with forward + right
held. -/
theorem c6_walk_not_normalized_witness :
    (walkMove ⟨0, 0, -1⟩ (getMoveInput ["w", "d"]) (1/100)).normSq =
      (((getMoveInput ["w", "d"]).forward - (getMoveInput ["w", "d"]).back) *
          ((getMoveInput ["w", "d"]).forward - (getMoveInput ["w", "d"]).back) +
        ((getMoveInput ["w", "d"]).right - (getMoveInput ["w", "d"]).left) *
          ((getMoveInput ["w", "d"]).right - (getMoveInput ["w", "d"]).left)) *
        ((WALK_SPEED * (if (getMoveInput ["w", "d"]).sprint then SPRINT_MULT
              else 1) * (1/100)) *
          (WALK_SPEED * (if (getMoveInput ["w", "d"]).sprint then SPRINT_MULT
              else 1) * (1/100))) :=
  c6_walk_not_normalized 0 (-1) (by norm_num) (getMoveInput ["w", "d"])
    (1/100)

/-- A frame with no active focus never touches the focus record, the modal
flag or log, the hover state, the bounds, or the input bookkeeping: the
walk branch only moves the camera and the look target. -/
theorem animateTick_inactive (fwd : ℚ → Vec3) (look : ℚ → ℚ → Vec3) (d : ℚ)
    (s : Sys) (h : s.focus.active = false) :
    (animateTick fwd look d s).focus = s.focus ∧
    (animateTick fwd look d s).modalOpens = s.modalOpens ∧
    (animateTick fwd look d s).modalOpen = s.modalOpen ∧
    (animateTick fwd look d s).roomLoaded = s.roomLoaded ∧
    (animateTick fwd look d s).rect = s.rect ∧
    (animateTick fwd look d s).hover = s.hover := by
  simp only [animateTick, h, Bool.false_eq_true, if_false]
  cases hb : s.roomLoaded && boundsAreFinite s
  case false => simp
  case true => simp

/-- Iterated version of `animateTick_inactive` over any list of frames. -/
theorem runTicks_inactive (fwd : ℚ → Vec3) (look : ℚ → ℚ → Vec3)
    (dts : List ℚ) (s : Sys) (h : s.focus.active = false) :
    (runTicks fwd look s dts).focus = s.focus ∧
    (runTicks fwd look s dts).modalOpens = s.modalOpens ∧
    (runTicks fwd look s dts).hover = s.hover := by
  induction dts generalizing s with
  | nil => exact ⟨rfl, rfl, rfl⟩
  | cons d rest ih =>
    have h1 := animateTick_inactive fwd look d s h
    have h2 := ih (animateTick fwd look d s) (by rw [h1.1]; exact h)
    refine ⟨?_, ?_, ?_⟩
    · exact h2.1.trans h1.1
    · exact h2.2.1.trans h1.2.1
    · exact h2.2.2.trans h1.2.2.2.2.2

-- ===== Highlight bookkeeping lemmas =====

/-- A material's original value satisfies the tracking relation. -/
theorem inv_refl (m : Material) : Inv m m :=
  ⟨rfl, rfl, fun _ => rfl, fun _ => ⟨rfl, rfl⟩⟩

/-- Highlighting preserves the tracking relation. -/
theorem inv_highlight (b : ℕ → ℕ) (orig cur : Material) (h : Inv orig cur) :
    Inv orig (highlightMat b cur) := by
  obtain ⟨oe, oi, oc⟩ := orig
  obtain ⟨ce, ci, cc⟩ := cur
  obtain ⟨h1, h2, h3, h4⟩ := h
  cases oe <;> cases ce <;> cases oc <;> cases cc <;>
    simp_all [Inv, highlightMat]

/-- Restoring from the stored snapshot of the original reproduces the
original exactly, from any value reachable by highlight passes. -/
theorem restoreMat_snapshot (orig cur : Material) (hwf : WfMat orig)
    (h : Inv orig cur) : restoreMat (snapshotOf orig) cur = orig := by
  obtain ⟨oe, oi, oc⟩ := orig
  obtain ⟨ce, ci, cc⟩ := cur
  obtain ⟨h1, h2, h3, h4⟩ := h
  cases oe <;> cases oi <;> cases ce <;> cases oc <;> cases cc <;>
    simp_all [WfMat, Inv, restoreMat, snapshotOf]

/-- An enable step on a different material does not touch `M`'s value. -/
theorem hlOn_mats_ne (b : ℕ → ℕ) (st : HL) (mid M : ℕ) (h : mid ≠ M) :
    (hlOn b st mid).mats M = st.mats M := by
  simp only [hlOn]
  exact Function.update_noteq (Ne.symm h) _ _

/-- An enable step on a different material does not touch `M`'s
snapshot. -/
theorem hlOn_snap_ne (b : ℕ → ℕ) (st : HL) (mid M : ℕ) (h : mid ≠ M) :
    (hlOn b st mid).snap M = st.snap M := by
  simp only [hlOn]
  split
  · rfl
  · exact Function.update_noteq (Ne.symm h) _ _

/-- An enable step highlights the stepped material. -/
theorem hlOn_mats_eq (b : ℕ → ℕ) (st : HL) (M : ℕ) :
    (hlOn b st M).mats M = highlightMat b (st.mats M) := by
  simp only [hlOn]
  exact Function.update_same _ _ _

/-- The first enable step on `M` records the snapshot of its current
value. -/
theorem hlOn_snap_fresh (b : ℕ → ℕ) (st : HL) (M : ℕ)
    (h : st.snap M = none) :
    (hlOn b st M).snap M = some (snapshotOf (st.mats M)) := by
  simp only [hlOn, h, Option.isSome_none, Bool.false_eq_true, if_false]
  exact Function.update_same _ _ _

/-- Later enable steps on `M` never overwrite an existing snapshot. -/
theorem hlOn_snap_stable (b : ℕ → ℕ) (st : HL) (M : ℕ)
    (h : (st.snap M).isSome = true) : (hlOn b st M).snap M = st.snap M := by
  simp only [hlOn, h, if_true]

/-- Disable steps never write any snapshot. -/
theorem hlOff_snap (st : HL) (mid : ℕ) : (hlOff st mid).snap = st.snap := by
  simp only [hlOff]
  split <;> rfl

/-- A disable step on a different material does not touch `M`'s value. -/
theorem hlOff_mats_ne (st : HL) (mid M : ℕ) (h : mid ≠ M) :
    (hlOff st mid).mats M = st.mats M := by
  simp only [hlOff]
  split
  · rfl
  · exact Function.update_noteq (Ne.symm h) _ _

/-- A disable step on `M` restores from its stored snapshot. -/
theorem hlOff_mats_eq (st : HL) (M : ℕ) (sv : Snapshot)
    (h : st.snap M = some sv) :
    (hlOff st M).mats M = restoreMat sv (st.mats M) := by
  simp only [hlOff, h]
  exact Function.update_same _ _ _

/-- The enable loop over `some r` is a fold of enable steps. -/
theorem applyHH_on (b : ℕ → ℕ) (r : Node) (st : HL) :
    applyHoverHighlight b (some r) true st = r.mats.foldl (hlOn b) st := by
  simp [applyHoverHighlight]

/-- The disable loop over `some r` is a fold of disable steps. -/
theorem applyHH_off (b : ℕ → ℕ) (r : Node) (st : HL) :
    applyHoverHighlight b (some r) false st = r.mats.foldl hlOff st := by
  simp [applyHoverHighlight]

/-- The highlight loop on `null` is a no-op. -/
theorem applyHH_none (b : ℕ → ℕ) (e : Bool) (st : HL) :
    applyHoverHighlight b none e st = st := rfl

/-- An enable fold over a list avoiding `M` touches neither `M`'s value
nor its snapshot. -/
theorem foldOn_not_mem (b : ℕ → ℕ) (M : ℕ) (l : List ℕ) :
    ∀ st : HL, M ∉ l →
      (l.foldl (hlOn b) st).mats M = st.mats M ∧
      (l.foldl (hlOn b) st).snap M = st.snap M := by
  induction l with
  | nil => exact fun st _ => ⟨rfl, rfl⟩
  | cons x xs ih =>
    intro st h
    have hx : x ≠ M := fun hxe => h (hxe ▸ List.mem_cons_self x xs)
    have hr := ih (hlOn b st x) (fun hm => h (List.mem_cons_of_mem x hm))
    exact ⟨hr.1.trans (hlOn_mats_ne b st x M hx),
           hr.2.trans (hlOn_snap_ne b st x M hx)⟩

/-- A disable fold over a list avoiding `M` does not touch `M`'s value. -/
theorem foldOff_not_mem (M : ℕ) (l : List ℕ) :
    ∀ st : HL, M ∉ l → (l.foldl hlOff st).mats M = st.mats M := by
  induction l with
  | nil => exact fun st _ => rfl
  | cons x xs ih =>
    intro st h
    have hx : x ≠ M := fun hxe => h (hxe ▸ List.mem_cons_self x xs)
    exact (ih (hlOff st x) (fun hm => h (List.mem_cons_of_mem x hm))).trans
      (hlOff_mats_ne st x M hx)

/-- A disable fold never writes snapshots. -/
theorem foldOff_snap (l : List ℕ) :
    ∀ st : HL, (l.foldl hlOff st).snap = st.snap := by
  induction l with
  | nil => exact fun _ => rfl
  | cons x xs ih =>
    intro st
    exact (ih (hlOff st x)).trans (hlOff_snap st x)

/-- Enable folds preserve the bookkeeping state for `M`. -/
theorem foldOn_good (b : ℕ → ℕ) (orig : Material) (M : ℕ) (l : List ℕ) :
    ∀ st : HL, GoodAt orig M st → GoodAt orig M (l.foldl (hlOn b) st) := by
  induction l with
  | nil => exact fun _ h => h
  | cons x xs ih =>
    intro st h
    refine ih _ ?_
    by_cases hx : x = M
    · subst hx
      refine ⟨?_, ?_⟩
      · rw [hlOn_snap_stable b st x (by rw [h.1]; rfl)]
        exact h.1
      · rw [hlOn_mats_eq]
        exact inv_highlight b orig _ h.2
    · refine ⟨(hlOn_snap_ne b st x M hx).trans h.1, ?_⟩
      rw [hlOn_mats_ne b st x M hx]
      exact h.2

/-- An enable fold whose list contains a not-yet-snapshotted `M` leaves
`M` in a good bookkeeping state: the snapshot of the original is recorded
(exactly once) and the value is a highlight of the original. -/
theorem foldOn_fresh (b : ℕ → ℕ) (M : ℕ) (l : List ℕ) :
    ∀ st : HL, st.snap M = none → M ∈ l →
      GoodAt (st.mats M) M (l.foldl (hlOn b) st) := by
  induction l with
  | nil => intro st _ h; cases h
  | cons x xs ih =>
    intro st hsnap h
    by_cases hx : x = M
    · subst hx
      refine foldOn_good b _ x xs _ ⟨?_, ?_⟩
      · rw [hlOn_snap_fresh b st x hsnap]
      · rw [hlOn_mats_eq]
        exact inv_highlight b _ _ (inv_refl _)
    · have hm : M ∈ xs := by
        rcases List.mem_cons.1 h with h1 | h1
        · exact absurd h1.symm hx
        · exact h1
      have hr := ih (hlOn b st x) (by rw [hlOn_snap_ne b st x M hx]; exact hsnap) hm
      rw [hlOn_mats_ne b st x M hx] at hr
      exact hr

/-- Disable folds keep a restored `M` restored. -/
theorem foldOff_keep (orig : Material) (M : ℕ) (hwf : WfMat orig)
    (l : List ℕ) :
    ∀ st : HL, GoodAt orig M st → st.mats M = orig →
      (l.foldl hlOff st).mats M = orig ∧
        GoodAt orig M (l.foldl hlOff st) := by
  induction l with
  | nil => exact fun st h hm => ⟨hm, h⟩
  | cons x xs ih =>
    intro st h hm
    by_cases hx : x = M
    · subst hx
      refine ih _ ⟨(hlOff_snap st x ▸ h.1 : _), ?_⟩ ?_
      all_goals
        rw [hlOff_mats_eq st x _ h.1, hm,
          restoreMat_snapshot orig orig hwf (inv_refl orig)]
      exact inv_refl orig
    · refine ih _ ⟨(hlOff_snap st x ▸ h.1 : _), ?_⟩ ?_
      all_goals rw [hlOff_mats_ne st x M hx]
      · exact h.2
      · exact hm

/-- Disable folds preserve the bookkeeping state for `M`, and restore
`M`'s original exactly when `M` is in the folded list. -/
theorem foldOff_good (orig : Material) (M : ℕ) (hwf : WfMat orig)
    (l : List ℕ) :
    ∀ st : HL, GoodAt orig M st →
      GoodAt orig M (l.foldl hlOff st) ∧
        (M ∈ l → (l.foldl hlOff st).mats M = orig) := by
  induction l with
  | nil => exact fun st h => ⟨h, fun hm => absurd hm (List.not_mem_nil M)⟩
  | cons x xs ih =>
    intro st h
    by_cases hx : x = M
    · subst hx
      have hres : (hlOff st x).mats x = orig := by
        rw [hlOff_mats_eq st x _ h.1]
        exact restoreMat_snapshot orig _ hwf h.2
      have hgood : GoodAt orig x (hlOff st x) :=
        ⟨(hlOff_snap st x ▸ h.1 : _), by rw [hres]; exact inv_refl orig⟩
      have hk := foldOff_keep orig x hwf xs (hlOff st x) hgood hres
      exact ⟨hk.2, fun _ => hk.1⟩
    · have hgood : GoodAt orig M (hlOff st x) :=
        ⟨(hlOff_snap st x ▸ h.1 : _), by rw [hlOff_mats_ne st x M hx]; exact h.2⟩
      have hr := ih _ hgood
      refine ⟨hr.1, fun hm => hr.2 ?_⟩
      rcases List.mem_cons.1 hm with h1 | h1
      · exact absurd h1.symm hx
      · exact h1

/-- An enable fold over a duplicate-free list containing `M` highlights
`M`'s current value exactly once. -/
theorem foldOn_hit (b : ℕ → ℕ) (M : ℕ) (l : List ℕ) :
    ∀ st : HL, l.Nodup → M ∈ l →
      (l.foldl (hlOn b) st).mats M = highlightMat b (st.mats M) := by
  induction l with
  | nil => intro st _ h; cases h
  | cons x xs ih =>
    intro st hnd h
    rw [List.foldl_cons]
    by_cases hx : x = M
    · subst hx
      have hnotin : x ∉ xs := (List.nodup_cons.1 hnd).1
      rw [(foldOn_not_mem b x xs (hlOn b st x) hnotin).1, hlOn_mats_eq]
    · have hm : M ∈ xs := by
        rcases List.mem_cons.1 h with h1 | h1
        · exact absurd h1.symm hx
        · exact h1
      rw [ih (hlOn b st x) (List.nodup_cons.1 hnd).2 hm,
        hlOn_mats_ne b st x M hx]

/-- One `setHoveredRoot` call to a root not referencing `M` preserves the
bookkeeping state for `M` (the implicit un-highlight of the previous root
may touch `M`, but only by restoring it). -/
theorem setHovered_good (b : ℕ → ℕ) (orig : Material) (M : ℕ)
    (hwf : WfMat orig) (new : Option Node)
    (hnew : ∀ r : Node, new = some r → M ∉ r.mats) (h : Hover)
    (hg : GoodAt orig M h.hl) :
    GoodAt orig M (setHoveredRoot b new h).hl := by
  unfold setHoveredRoot
  split
  · exact hg
  · have hg1 : GoodAt orig M (applyHoverHighlight b h.hovered false h.hl) := by
      cases hh : h.hovered with
      | none => exact hg
      | some r =>
        rw [applyHH_off]
        exact (foldOff_good orig M hwf r.mats h.hl hg).1
    cases hn : new with
    | none => exact hg1
    | some r =>
      have hnm := hnew r hn
      have hfm := foldOn_not_mem b M r.mats
        (applyHoverHighlight b h.hovered false h.hl) hnm
      refine ⟨?_, ?_⟩
      · show (applyHoverHighlight b (some r) true _).snap M = _
        rw [applyHH_on, hfm.2]
        exact hg1.1
      · show Inv orig ((applyHoverHighlight b (some r) true _).mats M)
        rw [applyHH_on, hfm.1]
        exact hg1.2

/-- A run of `setHoveredRoot` calls, none of whose targets reference `M`,
preserves the bookkeeping state for `M`. -/
theorem hoverOps_good (b : ℕ → ℕ) (orig : Material) (M : ℕ)
    (hwf : WfMat orig) (ops : List (Option Node)) :
    ∀ hov : Hover, (∀ o ∈ ops, ∀ r : Node, o = some r → M ∉ r.mats) →
      GoodAt orig M hov.hl →
      GoodAt orig M
        ((ops.foldl (fun h o => setHoveredRoot b o h) hov).hl) := by
  induction ops with
  | nil => exact fun _ _ hg => hg
  | cons o os ih =>
    intro hov hops hg
    refine ih _ (fun o' ho' r hr => hops o' (List.mem_cons_of_mem o ho') r hr)
      ?_
    exact setHovered_good b orig M hwf o
      (fun r hr => hops o (List.mem_cons_self o os) r hr) hov hg

-- ===== C2 =====

/-- C2: while a focus transition is active, the drag-to-look handler, the
wheel handler, and the hover handler are the identity on the session state
(their `focus.active` guards fire), and the per-frame update leaves yaw,
pitch, and the whole hover state (in particular the hovered root)
unchanged. -/
theorem c2_mode_exclusivity (s : Sys) (hact : s.focus.active = true)
    (look : ℚ → ℚ → Vec3) (fwd : ℚ → Vec3) (brighten : ℕ → ℕ)
    (maxPitch cx cy dx dy rawDt : ℚ) (ctrlKey : Bool)
    (hitRoot : Option Node) :
    onDragMove look maxPitch cx cy s = s ∧
    onWheel fwd look ctrlKey dx dy s = s ∧
    onHoverMove brighten hitRoot s = s ∧
    (animateTick fwd look rawDt s).yaw = s.yaw ∧
    (animateTick fwd look rawDt s).pitch = s.pitch ∧
    (animateTick fwd look rawDt s).hover = s.hover := by
  refine ⟨?_, ?_, ?_, ?_, ?_, ?_⟩
  · simp [onDragMove, hact]
  · simp [onWheel, hact]
  · simp [onHoverMove, hact]
  all_goals
    simp only [animateTick, hact, if_true]
    cases hb : s.roomLoaded && boundsAreFinite s
    case false => simp only [Bool.false_eq_true, if_false]
    case true =>
      simp only [if_true]
      split
      · cases hp : s.focus.openModalOnDone <;> simp [openModal]
      · rfl

/-- Witness for `c2_mode_exclusivity`: a session with an armed focus
transition. -/
theorem c2_mode_exclusivity_witness :
    onDragMove look0 (157/100) 3 4
        { sampleSys with focus := { idleFocus with active := true } } =
      { sampleSys with focus := { idleFocus with active := true } } ∧
    onWheel fwd0 look0 false 1 2
        { sampleSys with focus := { idleFocus with active := true } } =
      { sampleSys with focus := { idleFocus with active := true } } ∧
    onHoverMove id none
        { sampleSys with focus := { idleFocus with active := true } } =
      { sampleSys with focus := { idleFocus with active := true } } ∧
    (animateTick fwd0 look0 (1/60)
        { sampleSys with focus := { idleFocus with active := true } }).yaw =
      ({ sampleSys with focus := { idleFocus with active := true } } : Sys).yaw ∧
    (animateTick fwd0 look0 (1/60)
        { sampleSys with focus := { idleFocus with active := true } }).pitch =
      ({ sampleSys with
          focus := { idleFocus with active := true } } : Sys).pitch ∧
    (animateTick fwd0 look0 (1/60)
        { sampleSys with focus := { idleFocus with active := true } }).hover =
      ({ sampleSys with
          focus := { idleFocus with active := true } } : Sys).hover :=
  c2_mode_exclusivity { sampleSys with focus := { idleFocus with active := true } }
    rfl look0 fwd0 id (157/100) 3 4 1 2 (1/60) false none

-- ===== C8 =====

/-- C8: for a root whose world bounding box is empty, `startFocus` is a
silent atomic no-op — the whole session state (focus state, stored poses
and payload, hover state, modal state) is returned unchanged — and, the
focus state being idle, any number of subsequent frames opens no modal and
leaves the focus idle. -/
theorem c8_empty_bounds_noop (brighten : ℕ → ℕ) (fitK : ℚ) (viewDir : Vec3)
    (rootBox : Box3) (payload : Option Payload) (s : Sys)
    (hempty : rootBox.isEmpty = true) (hidle : s.focus.active = false)
    (fwd : ℚ → Vec3) (look : ℚ → ℚ → Vec3) (dts : List ℚ) :
    startFocus brighten fitK viewDir rootBox payload s = s ∧
    (runTicks fwd look (startFocus brighten fitK viewDir rootBox payload s)
        dts).modalOpens = s.modalOpens ∧
    (runTicks fwd look (startFocus brighten fitK viewDir rootBox payload s)
        dts).focus.active = false := by
  have hno : startFocus brighten fitK viewDir rootBox payload s = s := by
    simp [startFocus, fitCameraToObject, hempty]
  rw [hno]
  have hr := runTicks_inactive fwd look dts s hidle
  exact ⟨rfl, hr.2.1, by rw [hr.1]; exact hidle⟩

/-- Witness for `c8_empty_bounds_noop`: an empty box (`max.x < min.x`) on
an idle loaded session, followed by two frames. -/
theorem c8_empty_bounds_noop_witness :
    startFocus id 3 ⟨0, 0, -1⟩ ⟨⟨0, 0, 0⟩, ⟨-1, 0, 0⟩⟩
        (some ⟨"door", ""⟩) sampleSys = sampleSys ∧
    (runTicks fwd0 look0 (startFocus id 3 ⟨0, 0, -1⟩ ⟨⟨0, 0, 0⟩, ⟨-1, 0, 0⟩⟩
        (some ⟨"door", ""⟩) sampleSys) [1/30, 1/30]).modalOpens =
      sampleSys.modalOpens ∧
    (runTicks fwd0 look0 (startFocus id 3 ⟨0, 0, -1⟩ ⟨⟨0, 0, 0⟩, ⟨-1, 0, 0⟩⟩
        (some ⟨"door", ""⟩) sampleSys) [1/30, 1/30]).focus.active = false :=
  c8_empty_bounds_noop id 3 ⟨0, 0, -1⟩ ⟨⟨0, 0, 0⟩, ⟨-1, 0, 0⟩⟩
    (some ⟨"door", ""⟩) sampleSys (by norm_num [Box3.isEmpty]) rfl
    fwd0 look0 [1/30, 1/30]

-- ===== C4 =====

/-- C4: pointer-up click resolution.  The click is ignored (state
unchanged) when the room is not loaded, a focus transition is active, a
modal is open, the squared pointer travel exceeds `6²` pixels (in
particular an up-position 10 px from the down-position), or more than
450 ms elapsed since pointer-down.  Otherwise a hit chain resolving to a
clickable root named `"kumoclick_door"` (with a non-empty world box)
starts а focus transition whose stored completion payload has title
`"door"`. -/
theorem c4_click_resolution (brighten : ℕ → ℕ) (fitK : ℚ) (viewDir : Vec3)
    (cx cy nowMs : ℚ) (hitChain : List Node) (rootBox : Box3) (s : Sys) :
    (s.roomLoaded = false →
      onPointerUp brighten fitK viewDir cx cy nowMs hitChain rootBox s = s) ∧
    (s.focus.active = true →
      onPointerUp brighten fitK viewDir cx cy nowMs hitChain rootBox s = s) ∧
    (s.modalOpen = true →
      onPointerUp brighten fitK viewDir cx cy nowMs hitChain rootBox s = s) ∧
    ((cx - s.clickDownX) * (cx - s.clickDownX) +
        (cy - s.clickDownY) * (cy - s.clickDownY) > 36 →
      onPointerUp brighten fitK viewDir cx cy nowMs hitChain rootBox s = s) ∧
    ((cx - s.clickDownX) * (cx - s.clickDownX) +
        (cy - s.clickDownY) * (cy - s.clickDownY) = 100 →
      onPointerUp brighten fitK viewDir cx cy nowMs hitChain rootBox s = s) ∧
    (nowMs - s.clickDownTime > 450 →
      onPointerUp brighten fitK viewDir cx cy nowMs hitChain rootBox s = s) ∧
    (∀ (o : Node) (rest : List Node) (root : Node),
      s.roomLoaded = true → s.focus.active = false → s.modalOpen = false →
      (cx - s.clickDownX) * (cx - s.clickDownX) +
        (cy - s.clickDownY) * (cy - s.clickDownY) ≤ 36 →
      nowMs - s.clickDownTime ≤ 450 →
      hitChain = o :: rest →
      findClickableRoot (o :: rest) = some root →
      root.name = "kumoclick_door" →
      rootBox.isEmpty = false →
      (onPointerUp brighten fitK viewDir cx cy nowMs hitChain rootBox
          s).focus.active = true ∧
        (onPointerUp brighten fitK viewDir cx cy nowMs hitChain rootBox
            s).focus.openModalOnDone.map Payload.title = some "door") := by
  refine ⟨?_, ?_, ?_, ?_, ?_, ?_, ?_⟩
  · intro h
    simp only [onPointerUp, h, Bool.not_false, Bool.true_or, if_true]
  · intro h
    simp only [onPointerUp, h, Bool.or_true, if_true]
  · intro h
    simp only [onPointerUp, h, if_true, ite_self]
  · intro h
    simp only [onPointerUp, h, true_or, if_true, ite_self]
  · intro h
    have h36 : (cx - s.clickDownX) * (cx - s.clickDownX) +
        (cy - s.clickDownY) * (cy - s.clickDownY) > 36 := by
      rw [h]; norm_num
    simp only [onPointerUp, h36, true_or, if_true, ite_self]
  · intro h
    simp only [onPointerUp, h, or_true, if_true, ite_self]
  · intro o rest root hloaded hact hmodal hdist hdt hchain hfind hname hbox
    subst hchain
    rw [onPointerUp]
    rw [hloaded, hact, hmodal]
    simp only [Bool.not_true, Bool.false_or, Bool.false_eq_true, if_false]
    rw [if_neg (by push_neg; exact ⟨hdist, hdt⟩)]
    simp only [hfind]
    rw [startFocus]
    simp only [fitCameraToObject, hbox, Bool.false_eq_true, if_false]
    refine ⟨?_, ?_⟩
    · simp
    · rw [hname]
      rfl

/-- Witness for `c4_click_resolution`: the spec's two scenarios — a clean
50 ms click at (100, 100) hitting `kumoclick_door` starts the focus with
payload title `"door"`, and the same click released 10 px away is a
drag. -/
theorem c4_click_resolution_witness :
    ((onPointerUp id 3 ⟨0, 0, -1⟩ 100 100 50
        [⟨"doormesh", []⟩, ⟨"kumoclick_door", [0]⟩]
        ⟨⟨1, 0, 1⟩, ⟨2, 1, 2⟩⟩ sampleSys).focus.active = true ∧
      (onPointerUp id 3 ⟨0, 0, -1⟩ 100 100 50
          [⟨"doormesh", []⟩, ⟨"kumoclick_door", [0]⟩]
          ⟨⟨1, 0, 1⟩, ⟨2, 1, 2⟩⟩ sampleSys).focus.openModalOnDone.map
        Payload.title = some "door") ∧
    onPointerUp id 3 ⟨0, 0, -1⟩ 110 100 50
        [⟨"doormesh", []⟩, ⟨"kumoclick_door", [0]⟩]
        ⟨⟨1, 0, 1⟩, ⟨2, 1, 2⟩⟩ sampleSys = sampleSys :=
  ⟨(c4_click_resolution id 3 ⟨0, 0, -1⟩ 100 100 50
      [⟨"doormesh", []⟩, ⟨"kumoclick_door", [0]⟩]
      ⟨⟨1, 0, 1⟩, ⟨2, 1, 2⟩⟩ sampleSys).2.2.2.2.2.2
      ⟨"doormesh", []⟩ [⟨"kumoclick_door", [0]⟩] ⟨"kumoclick_door", [0]⟩
      rfl rfl rfl (by norm_num [sampleSys]) (by norm_num [sampleSys]) rfl
      (by rfl) rfl (by norm_num [Box3.isEmpty]),
    (c4_click_resolution id 3 ⟨0, 0, -1⟩ 110 100 50
      [⟨"doormesh", []⟩, ⟨"kumoclick_door", [0]⟩]
      ⟨⟨1, 0, 1⟩, ⟨2, 1, 2⟩⟩ sampleSys).2.2.2.2.1
      (by norm_num [sampleSys])⟩

-- ===== C3 =====

/-- C3: for a material `M` under root `R` with no snapshot yet, enabling
the highlight (`applyHoverHighlight R true`), then any number of
intervening `setHovered` calls to targets that do not reference `M`, then
disabling (`applyHoverHighlight R false`) restores `M`'s emissive color,
emissive intensity, and base color exactly to their pre-highlight values;
throughout, the stored snapshot is the one taken at the first highlight of
`M` and is never overwritten with an already-highlighted value. -/
theorem c3_highlight_reversible (brighten : ℕ → ℕ) (st : HL) (R : Node)
    (M : ℕ) (hM : M ∈ R.mats) (hfresh : st.snap M = none)
    (hwf : WfMat (st.mats M)) (h0 : Option Node) (ops : List (Option Node))
    (hops : ∀ o ∈ ops, avoidsMat M o) :
    (applyHoverHighlight brighten (some R) false
        ((ops.foldl (fun h o => setHoveredRoot brighten o h)
          ⟨applyHoverHighlight brighten (some R) true st, h0⟩).hl)).mats M =
      st.mats M ∧
    (applyHoverHighlight brighten (some R) false
        ((ops.foldl (fun h o => setHoveredRoot brighten o h)
          ⟨applyHoverHighlight brighten (some R) true st, h0⟩).hl)).snap M =
      some (snapshotOf (st.mats M)) := by
  have hops' : ∀ o ∈ ops, ∀ r : Node, o = some r → M ∉ r.mats := by
    intro o ho r hr
    subst hr
    exact hops _ ho
  have hg1 : GoodAt (st.mats M) M
      (applyHoverHighlight brighten (some R) true st) := by
    rw [applyHH_on]
    exact foldOn_fresh brighten M R.mats st hfresh hM
  have hg2 := hoverOps_good brighten (st.mats M) M hwf ops
    ⟨applyHoverHighlight brighten (some R) true st, h0⟩ hops' hg1
  rw [applyHH_off]
  have hr := foldOff_good (st.mats M) M hwf R.mats _ hg2
  exact ⟨hr.2 hM, hr.1.1⟩

/-- Witness for `c3_highlight_reversible`: material `0` under a two-material
lamp root, with an intervening hover of a door root (material `2`) and a
hover clear, is restored exactly and keeps its original snapshot. -/
theorem c3_highlight_reversible_witness :
    (applyHoverHighlight (fun c => c + 1) (some ⟨"kumoclick_lamp", [0, 1]⟩)
        false
        (([some ⟨"kumoclick_door", [2]⟩, none].foldl
          (fun h o => setHoveredRoot (fun c => c + 1) o h)
          ⟨applyHoverHighlight (fun c => c + 1)
            (some ⟨"kumoclick_lamp", [0, 1]⟩) true freshHover.hl,
            none⟩).hl)).mats 0 = freshHover.hl.mats 0 ∧
    (applyHoverHighlight (fun c => c + 1) (some ⟨"kumoclick_lamp", [0, 1]⟩)
        false
        (([some ⟨"kumoclick_door", [2]⟩, none].foldl
          (fun h o => setHoveredRoot (fun c => c + 1) o h)
          ⟨applyHoverHighlight (fun c => c + 1)
            (some ⟨"kumoclick_lamp", [0, 1]⟩) true freshHover.hl,
            none⟩).hl)).snap 0 = some (snapshotOf (freshHover.hl.mats 0)) :=
  c3_highlight_reversible (fun c => c + 1) freshHover.hl
    ⟨"kumoclick_lamp", [0, 1]⟩ 0 (by decide) rfl (by decide) none
    [some ⟨"kumoclick_door", [2]⟩, none] (by decide)

-- ===== C7 =====

/-- C7: at most one root is highlighted at a time.  From a fresh state,
`setHovered X` followed by `setHovered Y` (X ≠ Y) leaves the hovered root
equal to `Y`; every material referenced only by `X` is restored to its
original value; every material of `Y` (shared with `X` or not) carries
exactly one highlight over its original value; and materials referenced by
neither root are untouched in value and snapshot. -/
theorem c7_hover_single_active (brighten : ℕ → ℕ) (st : HL) (X Y : Node)
    (hXY : X ≠ Y)
    (hfX : ∀ M ∈ X.mats, st.snap M = none)
    (hwfX : ∀ M ∈ X.mats, WfMat (st.mats M))
    (hndY : Y.mats.Nodup) :
    (setHoveredRoot brighten (some Y)
        (setHoveredRoot brighten (some X) ⟨st, none⟩)).hovered = some Y ∧
    (∀ M ∈ X.mats, M ∉ Y.mats →
      (setHoveredRoot brighten (some Y)
        (setHoveredRoot brighten (some X) ⟨st, none⟩)).hl.mats M =
        st.mats M) ∧
    (∀ M ∈ Y.mats,
      (setHoveredRoot brighten (some Y)
        (setHoveredRoot brighten (some X) ⟨st, none⟩)).hl.mats M =
        highlightMat brighten (st.mats M)) ∧
    (∀ M, M ∉ X.mats → M ∉ Y.mats →
      (setHoveredRoot brighten (some Y)
        (setHoveredRoot brighten (some X) ⟨st, none⟩)).hl.mats M =
          st.mats M ∧
        (setHoveredRoot brighten (some Y)
          (setHoveredRoot brighten (some X) ⟨st, none⟩)).hl.snap M =
          st.snap M) := by
  have h1eq : setHoveredRoot brighten (some X) ⟨st, none⟩ =
      ⟨X.mats.foldl (hlOn brighten) st, some X⟩ := by
    simp [setHoveredRoot, applyHoverHighlight]
  rw [h1eq]
  have h2eq : setHoveredRoot brighten (some Y)
      ⟨X.mats.foldl (hlOn brighten) st, some X⟩ =
      ⟨Y.mats.foldl (hlOn brighten)
        (X.mats.foldl hlOff (X.mats.foldl (hlOn brighten) st)), some Y⟩ := by
    rw [setHoveredRoot]
    rw [if_neg (by simp [Ne.symm hXY])]
    simp only [applyHH_off, applyHH_on]
  rw [h2eq]
  refine ⟨rfl, ?_, ?_, ?_⟩
  · intro M hMX hMY
    show (Y.mats.foldl (hlOn brighten) _).mats M = st.mats M
    have hA := foldOn_fresh brighten M X.mats st (hfX M hMX) hMX
    have hB := foldOff_good (st.mats M) M (hwfX M hMX) X.mats _ hA
    rw [(foldOn_not_mem brighten M Y.mats _ hMY).1]
    exact hB.2 hMX
  · intro M hMY
    show (Y.mats.foldl (hlOn brighten) _).mats M =
      highlightMat brighten (st.mats M)
    by_cases hMX : M ∈ X.mats
    · have hA := foldOn_fresh brighten M X.mats st (hfX M hMX) hMX
      have hB := foldOff_good (st.mats M) M (hwfX M hMX) X.mats _ hA
      rw [foldOn_hit brighten M Y.mats _ hndY hMY, hB.2 hMX]
    · have hA := foldOn_not_mem brighten M X.mats st hMX
      have hB := foldOff_not_mem M X.mats
        (X.mats.foldl (hlOn brighten) st) hMX
      rw [foldOn_hit brighten M Y.mats _ hndY hMY, hB, hA.1]
  · intro M hMX hMY
    have hA := foldOn_not_mem brighten M X.mats st hMX
    have hB := foldOff_not_mem M X.mats (X.mats.foldl (hlOn brighten) st) hMX
    have hBs := foldOff_snap X.mats (X.mats.foldl (hlOn brighten) st)
    have hC := foldOn_not_mem brighten M Y.mats
      (X.mats.foldl hlOff (X.mats.foldl (hlOn brighten) st)) hMY
    constructor
    · show (Y.mats.foldl (hlOn brighten) _).mats M = st.mats M
      rw [hC.1, hB, hA.1]
    · show (Y.mats.foldl (hlOn brighten) _).snap M = st.snap M
      rw [hC.2, congrFun hBs M, hA.2]

/-- Witness for `c7_hover_single_active`: lamp root with materials
`[0, 1]`, door root with materials `[1, 2]` (material `1` shared): after
hovering the lamp and then the door, material `0` is restored, materials
`1` and `2` are highlighted once, material `5` is untouched, and the door
is the hovered root. -/
theorem c7_hover_single_active_witness :
    (setHoveredRoot (fun c => c + 1) (some ⟨"kumoclick_door", [1, 2]⟩)
        (setHoveredRoot (fun c => c + 1) (some ⟨"kumoclick_lamp", [0, 1]⟩)
          ⟨freshHover.hl, none⟩)).hovered =
      some ⟨"kumoclick_door", [1, 2]⟩ ∧
    (setHoveredRoot (fun c => c + 1) (some ⟨"kumoclick_door", [1, 2]⟩)
        (setHoveredRoot (fun c => c + 1) (some ⟨"kumoclick_lamp", [0, 1]⟩)
          ⟨freshHover.hl, none⟩)).hl.mats 0 = freshHover.hl.mats 0 ∧
    (setHoveredRoot (fun c => c + 1) (some ⟨"kumoclick_door", [1, 2]⟩)
        (setHoveredRoot (fun c => c + 1) (some ⟨"kumoclick_lamp", [0, 1]⟩)
          ⟨freshHover.hl, none⟩)).hl.mats 1 =
      highlightMat (fun c => c + 1) (freshHover.hl.mats 1) ∧
    (setHoveredRoot (fun c => c + 1) (some ⟨"kumoclick_door", [1, 2]⟩)
        (setHoveredRoot (fun c => c + 1) (some ⟨"kumoclick_lamp", [0, 1]⟩)
          ⟨freshHover.hl, none⟩)).hl.mats 2 =
      highlightMat (fun c => c + 1) (freshHover.hl.mats 2) ∧
    (setHoveredRoot (fun c => c + 1) (some ⟨"kumoclick_door", [1, 2]⟩)
        (setHoveredRoot (fun c => c + 1) (some ⟨"kumoclick_lamp", [0, 1]⟩)
          ⟨freshHover.hl, none⟩)).hl.mats 5 = freshHover.hl.mats 5 := by
  have h := c7_hover_single_active (fun c => c + 1) freshHover.hl
    ⟨"kumoclick_lamp", [0, 1]⟩ ⟨"kumoclick_door", [1, 2]⟩ (by decide)
    (by decide) (by decide) (by decide)
  exact ⟨h.1, h.2.1 0 (by decide) (by decide), h.2.2.1 1 (by decide),
    h.2.2.1 2 (by decide), (h.2.2.2 5 (by decide) (by decide)).1⟩

-- ===== Focus-animation lemmas =====

/-- The cubic ease maps 1 to 1. -/
theorem easeInOutCubic_one : easeInOutCubic 1 = 1 := by
  norm_num [easeInOutCubic]

/-- Linear interpolation at parameter 1 reaches the destination. -/
theorem lerpV_one (a b : Vec3) : a.lerpV b 1 = b := by
  obtain ⟨bx, b2, bz⟩ := b
  obtain ⟨ax, a2, az⟩ := a
  simp only [Vec3.lerpV, Vec3.mk.injEq]
  refine ⟨by ring, by ring, by ring⟩

/-- With the room loaded and finite bounds, `clampToRoomXZ` is the XZ
point clamp on both components. -/
theorem clampToRoomXZ_some (s : Sys) (b : Rect) (hl : s.roomLoaded = true)
    (hr : s.rect = some b) (pos tgt : Vec3) :
    clampToRoomXZ s pos tgt = (clampPointXZ b pos, clampPointXZ b tgt) := by
  simp [clampToRoomXZ, hl, hr]

/-- A frame of an active, not-yet-finishing focus transition: progress
advances by `(capped dt)/dur` and the camera/target move to the clamped
eased interpolation; nothing else changes. -/
theorem animateTick_active_progress (fwd : ℚ → Vec3) (look : ℚ → ℚ → Vec3)
    (d : ℚ) (s : Sys) (hl : s.roomLoaded = true)
    (hbf : boundsAreFinite s = true) (ha : s.focus.active = true)
    (hlt : s.focus.t + min d DT_CAP / s.focus.dur < 1) :
    animateTick fwd look d s = { s with
      camPos := (clampToRoomXZ s
        ((s.focus.fromPos).lerpV s.focus.toPos
          (easeInOutCubic (min 1 (s.focus.t + min d DT_CAP / s.focus.dur))))
        ((s.focus.fromTarget).lerpV s.focus.toTarget
          (easeInOutCubic
            (min 1 (s.focus.t + min d DT_CAP / s.focus.dur))))).1
      target := (clampToRoomXZ s
        ((s.focus.fromPos).lerpV s.focus.toPos
          (easeInOutCubic (min 1 (s.focus.t + min d DT_CAP / s.focus.dur))))
        ((s.focus.fromTarget).lerpV s.focus.toTarget
          (easeInOutCubic
            (min 1 (s.focus.t + min d DT_CAP / s.focus.dur))))).2
      focus := { s.focus with
        t := s.focus.t + min d DT_CAP / s.focus.dur } } := by
  simp only [animateTick, hl, hbf, ha, Bool.and_self, eq_self_iff_true,
    if_true]
  rw [if_neg (not_le.2 hlt)]

/-- The completing frame of an active focus transition with a pending
payload: the camera and target land on the clamped destination pose, the
transition deactivates, and the payload is delivered to the modal. -/
theorem animateTick_complete (fwd : ℚ → Vec3) (look : ℚ → ℚ → Vec3)
    (d : ℚ) (s : Sys) (b : Rect) (p : Payload) (hl : s.roomLoaded = true)
    (hr : s.rect = some b) (ha : s.focus.active = true)
    (hp : s.focus.openModalOnDone = some p)
    (hge : 1 ≤ s.focus.t + min d DT_CAP / s.focus.dur) :
    animateTick fwd look d s = { s with
      camPos := clampPointXZ b s.focus.toPos
      target := clampPointXZ b s.focus.toTarget
      focus := { s.focus with
        t := s.focus.t + min d DT_CAP / s.focus.dur
        active := false }
      modalOpen := true
      modalOpens := s.modalOpens ++ [p] } := by
  have hbf : boundsAreFinite s = true := by
    rw [boundsAreFinite, hr]
    rfl
  simp only [animateTick, hl, hbf, ha, Bool.and_self, eq_self_iff_true,
    if_true]
  rw [if_pos hge]
  rw [min_eq_left hge, easeInOutCubic_one, lerpV_one, lerpV_one]
  rw [clampToRoomXZ_some s b hl hr]
  simp only [hp, openModal]

/-- A run of frames during which the focus transition never reaches
progress 1: the transition stays active, progress accumulates the capped
deltas divided by the duration, and the focus record (apart from `t`),
the modal log, and the bounds are untouched. -/
theorem runTicks_focus_partial (fwd : ℚ → Vec3) (look : ℚ → ℚ → Vec3)
    (dts : List ℚ) :
    ∀ s : Sys, s.roomLoaded = true → boundsAreFinite s = true →
      s.focus.active = true → 0 < s.focus.dur →
      (∀ i, i ≤ dts.length →
        s.focus.t +
          ((dts.take i).map (fun x => min x DT_CAP)).sum / s.focus.dur < 1) →
      (runTicks fwd look s dts).focus = { s.focus with
          t := s.focus.t +
            (dts.map (fun x => min x DT_CAP)).sum / s.focus.dur } ∧
        (runTicks fwd look s dts).modalOpens = s.modalOpens ∧
        (runTicks fwd look s dts).roomLoaded = s.roomLoaded ∧
        (runTicks fwd look s dts).rect = s.rect := by
  induction dts with
  | nil =>
    intro s hl hbf ha hdur hpre
    refine ⟨?_, rfl, rfl, rfl⟩
    show s.focus = _
    simp only [List.map_nil, List.sum_nil, zero_div, add_zero]
  | cons d rest ih =>
    intro s hl hbf ha hdur hpre
    have h1 : s.focus.t + min d DT_CAP / s.focus.dur < 1 := by
      have h := hpre 1 (by simp)
      simpa using h
    have hstep := animateTick_active_progress fwd look d s hl hbf ha h1
    have hrun : runTicks fwd look s (d :: rest) =
        runTicks fwd look (animateTick fwd look d s) rest := rfl
    have hs1focus : (animateTick fwd look d s).focus =
        { s.focus with t := s.focus.t + min d DT_CAP / s.focus.dur } := by
      rw [hstep]
    have hs1rect : (animateTick fwd look d s).rect = s.rect := by
      rw [hstep]
    have hs1room : (animateTick fwd look d s).roomLoaded = s.roomLoaded := by
      rw [hstep]
    have hs1modal : (animateTick fwd look d s).modalOpens = s.modalOpens := by
      rw [hstep]
    have hihyp : ∀ i, i ≤ rest.length →
        (animateTick fwd look d s).focus.t +
          ((rest.take i).map (fun x => min x DT_CAP)).sum /
            (animateTick fwd look d s).focus.dur < 1 := by
      intro i hi
      have h := hpre (i + 1) (by simpa using Nat.succ_le_succ hi)
      rw [List.take_succ_cons, List.map_cons, List.sum_cons, add_div] at h
      rw [hs1focus]
      dsimp only
      linarith
    obtain ⟨hf, hm, hroom, hrect⟩ := ih (animateTick fwd look d s)
      (by rw [hs1room]; exact hl)
      (by rw [boundsAreFinite, hs1rect]; rw [boundsAreFinite] at hbf
          exact hbf)
      (by rw [hs1focus]; exact ha)
      (by rw [hs1focus]; exact hdur)
      hihyp
    rw [hrun]
    refine ⟨?_, hm.trans hs1modal, hroom.trans hs1room, hrect.trans hs1rect⟩
    rw [hf, hs1focus]
    dsimp only
    rw [List.map_cons, List.sum_cons, add_div]
    congr 1
    ring

-- ===== C1 =====

/-- C1 counterexample: a focus transition with duration `0.05` toward a
destination pose with `x = 6`, in a room clamped at `maxX = 5`.  After
one tick of `0.05 s` (accumulated ticks = the duration), the transition
completes and the payload is delivered, but the camera position is the
XZ-clamped destination `(5, 2, 0)`, not the destination pose `(6, 2, 0)`:
the claim's "camera position equals the destination pose" fails (by a full
unit, beyond any reasonable epsilon). -/
theorem c1_counterexample :
    (runTicks fwd0 look0 focusSys [1/20]).focus.active = false ∧
    (runTicks fwd0 look0 focusSys [1/20]).modalOpens =
      [⟨"door", ""⟩] ∧
    (runTicks fwd0 look0 focusSys [1/20]).camPos = ⟨5, 2, 0⟩ ∧
    focusSys.focus.toPos = ⟨6, 2, 0⟩ ∧
    (runTicks fwd0 look0 focusSys [1/20]).camPos ≠ focusSys.focus.toPos := by
  have hc := animateTick_complete fwd0 look0 (1/20) focusSys ⟨-5, 5, -5, 5⟩
    ⟨"door", ""⟩ rfl rfl rfl rfl
    (by show (1 : ℚ) ≤ 0 + min (1/20) DT_CAP / (1/20); norm_num [DT_CAP])
  have hrun : runTicks fwd0 look0 focusSys [1/20] =
      animateTick fwd0 look0 (1/20) focusSys := rfl
  rw [hrun, hc]
  refine ⟨rfl, rfl, ?_, rfl, ?_⟩
  · show clampPointXZ ⟨-5, 5, -5, 5⟩ ⟨6, 2, 0⟩ = ⟨5, 2, 0⟩
    norm_num [clampPointXZ, clamp, Vec3.mk.injEq]
  · show clampPointXZ ⟨-5, 5, -5, 5⟩ ⟨6, 2, 0⟩ ≠ ⟨6, 2, 0⟩
    norm_num [clampPointXZ, clamp, Vec3.mk.injEq]

/-- C1 (amended): for a focus transition started with duration `D > 0` and
a completion payload, once the accumulated (capped) update ticks reach `D`
seconds, the transition goes from Active to Idle exactly once, the camera
position and look target equal the XZ-bounds-clamp of the destination pose
(exactly, in this rational model; the destination itself is reached
whenever it lies inside the walkable rectangle), and the payload is
delivered to `openModal` exactly once — also across any further frames. -/
theorem c1_focus_completion (fwd : ℚ → Vec3) (look : ℚ → ℚ → Vec3)
    (s : Sys) (b : Rect) (p : Payload) (hl : s.roomLoaded = true)
    (hr : s.rect = some b) (ha : s.focus.active = true)
    (ht0 : s.focus.t = 0) (hdur : 0 < s.focus.dur)
    (hp : s.focus.openModalOnDone = some p) (dts : List ℚ) (hne : dts ≠ [])
    (hpre : ∀ i, i < dts.length →
      ((dts.take i).map (fun x => min x DT_CAP)).sum < s.focus.dur)
    (htot : s.focus.dur ≤ (dts.map (fun x => min x DT_CAP)).sum)
    (extra : List ℚ) :
    (runTicks fwd look s dts).focus.active = false ∧
    (runTicks fwd look s dts).camPos = clampPointXZ b s.focus.toPos ∧
    (runTicks fwd look s dts).target = clampPointXZ b s.focus.toTarget ∧
    (runTicks fwd look s dts).modalOpens = s.modalOpens ++ [p] ∧
    (runTicks fwd look (runTicks fwd look s dts) extra).modalOpens =
      s.modalOpens ++ [p] ∧
    (runTicks fwd look (runTicks fwd look s dts) extra).focus.active =
      false := by
  obtain ⟨init, dlast, hsplit⟩ : ∃ init dlast, dts = init ++ [dlast] := by
    refine ⟨dts.dropLast, dts.getLast hne, ?_⟩
    exact (List.dropLast_append_getLast hne).symm
  subst hsplit
  have hf : ∀ i, i ≤ init.length →
      s.focus.t +
        ((init.take i).map (fun x => min x DT_CAP)).sum / s.focus.dur < 1 := by
    intro i hi
    have hlt := hpre i (by simpa using Nat.lt_succ_of_le hi)
    rw [List.take_append_of_le_length hi] at hlt
    rw [ht0, zero_add]
    exact (div_lt_one hdur).2 hlt
  obtain ⟨hfoc, hmod, hroom, hrect⟩ := runTicks_focus_partial fwd look init s
    hl (by rw [boundsAreFinite, hr]; rfl) ha hdur hf
  have hsum : ((init ++ [dlast]).map (fun x => min x DT_CAP)).sum =
      (init.map (fun x => min x DT_CAP)).sum + min dlast DT_CAP := by
    simp
  rw [hsum] at htot
  have hge : 1 ≤ (runTicks fwd look s init).focus.t +
      min dlast DT_CAP / (runTicks fwd look s init).focus.dur := by
    rw [hfoc]
    dsimp only
    rw [ht0, zero_add, div_add_div_same]
    exact (one_le_div hdur).2 htot
  have hcomp := animateTick_complete fwd look dlast (runTicks fwd look s init)
    b p (by rw [hroom]; exact hl) (by rw [hrect]; exact hr)
    (by rw [hfoc]; exact ha) (by rw [hfoc]; exact hp) hge
  have hrunsplit : runTicks fwd look s (init ++ [dlast]) =
      animateTick fwd look dlast (runTicks fwd look s init) := by
    simp [runTicks, List.foldl_append]
  have hactive : (runTicks fwd look s (init ++ [dlast])).focus.active =
      false := by
    rw [hrunsplit, hcomp]
  have hcam : (runTicks fwd look s (init ++ [dlast])).camPos =
      clampPointXZ b s.focus.toPos := by
    rw [hrunsplit, hcomp]
    dsimp only
    rw [hfoc]
  have htgt : (runTicks fwd look s (init ++ [dlast])).target =
      clampPointXZ b s.focus.toTarget := by
    rw [hrunsplit, hcomp]
    dsimp only
    rw [hfoc]
  have hmods : (runTicks fwd look s (init ++ [dlast])).modalOpens =
      s.modalOpens ++ [p] := by
    rw [hrunsplit, hcomp]
    dsimp only
    rw [hmod]
  have hext := runTicks_inactive fwd look extra
    (runTicks fwd look s (init ++ [dlast])) hactive
  exact ⟨hactive, hcam, htgt, hmods, hext.2.1.trans hmods,
    by rw [hext.1]; exact hactive⟩

/-- Witness for `c1_focus_completion`: the armed `focusSys` transition
(duration `0.05`, destination `x = 6` beyond `maxX = 5`) driven by one
`0.05 s` tick and one extra frame: it deactivates, lands on the clamped
destination, and delivers the payload exactly once. -/
theorem c1_focus_completion_witness :
    (runTicks fwd0 look0 focusSys [1/20]).focus.active = false ∧
    (runTicks fwd0 look0 focusSys [1/20]).camPos =
      clampPointXZ ⟨-5, 5, -5, 5⟩ focusSys.focus.toPos ∧
    (runTicks fwd0 look0 focusSys [1/20]).target =
      clampPointXZ ⟨-5, 5, -5, 5⟩ focusSys.focus.toTarget ∧
    (runTicks fwd0 look0 focusSys [1/20]).modalOpens =
      focusSys.modalOpens ++ [⟨"door", ""⟩] ∧
    (runTicks fwd0 look0 (runTicks fwd0 look0 focusSys [1/20])
        [1/30]).modalOpens = focusSys.modalOpens ++ [⟨"door", ""⟩] ∧
    (runTicks fwd0 look0 (runTicks fwd0 look0 focusSys [1/20])
        [1/30]).focus.active = false :=
  c1_focus_completion fwd0 look0 focusSys ⟨-5, 5, -5, 5⟩ ⟨"door", ""⟩
    rfl rfl rfl rfl (by show (0 : ℚ) < 1/20; norm_num) rfl [1/20]
    (by simp)
    (by intro i hi
        have hz : i = 0 := Nat.lt_one_iff.1 (by simpa using hi)
        subst hz
        show ((0 : ℚ)) < 1/20
        norm_num)
    (by show (1/20 : ℚ) ≤ min (1/20) DT_CAP + 0
        norm_num [DT_CAP])
    [1/30]

-- ===== C10 =====

/-- During an active focus, a frame advances progress by exactly the
capped delta over the duration, whether or not it completes. -/
theorem animateTick_focus_t (fwd : ℚ → Vec3) (look : ℚ → ℚ → Vec3)
    (raw : ℚ) (s : Sys) (hl : s.roomLoaded = true)
    (hbf : boundsAreFinite s = true) (ha : s.focus.active = true) :
    (animateTick fwd look raw s).focus.t =
      s.focus.t + min raw DT_CAP / s.focus.dur := by
  simp only [animateTick, hl, hbf, ha, Bool.and_self, eq_self_iff_true,
    if_true]
  split
  · split <;> simp [openModal]
  · rfl

/-- A movement-axis coefficient with input in `{-1, 0, 1}` is bounded by
the maximal speed times the delta cap. -/
theorem moveCoeff_bound (a speed dt : ℚ) (ha : a = 0 ∨ a = 1 ∨ a = -1)
    (hs : 0 ≤ speed) (hsle : speed ≤ WALK_SPEED * SPRINT_MULT)
    (hdt0 : 0 ≤ dt) (hdtle : dt ≤ DT_CAP) :
    |a * speed * dt| ≤ WALK_SPEED * SPRINT_MULT * DT_CAP := by
  have h1 : |a| ≤ 1 := by rcases ha with h | h | h <;> simp [h]
  calc |a * speed * dt| = |a| * speed * dt := by
        rw [abs_mul, abs_mul, abs_of_nonneg hs, abs_of_nonneg hdt0]
    _ ≤ 1 * (WALK_SPEED * SPRINT_MULT) * DT_CAP := by
        gcongr
        norm_num [WALK_SPEED, SPRINT_MULT]
    _ = WALK_SPEED * SPRINT_MULT * DT_CAP := by ring

/-- C10: the per-frame delta fed to the update is `min(raw, 0.05)`.  In a
single frame after an arbitrarily long stall, an active focus animation
advances by exactly `min(raw, 0.05)/duration ≤ 0.05/duration`, and each
keyboard-walk movement-axis coefficient (the scalar applied to the unit
forward and right directions) is bounded in magnitude by
`WALK_SPEED · SPRINT_MULT · 0.05`. -/
theorem c10_frame_delta_cap (fwd : ℚ → Vec3) (look : ℚ → ℚ → Vec3)
    (raw : ℚ) (s : Sys) (hraw : 0 ≤ raw) (hl : s.roomLoaded = true)
    (hbf : boundsAreFinite s = true) (hdur : 0 < s.focus.dur) :
    min raw DT_CAP ≤ DT_CAP ∧
    (s.focus.active = true →
      (animateTick fwd look raw s).focus.t - s.focus.t =
          min raw DT_CAP / s.focus.dur ∧
        (animateTick fwd look raw s).focus.t - s.focus.t ≤
          DT_CAP / s.focus.dur) ∧
    |((getMoveInput s.keys).forward - (getMoveInput s.keys).back) *
        (WALK_SPEED *
          (if (getMoveInput s.keys).sprint then SPRINT_MULT else 1)) *
        min raw DT_CAP| ≤ WALK_SPEED * SPRINT_MULT * DT_CAP ∧
    |((getMoveInput s.keys).right - (getMoveInput s.keys).left) *
        (WALK_SPEED *
          (if (getMoveInput s.keys).sprint then SPRINT_MULT else 1)) *
        min raw DT_CAP| ≤ WALK_SPEED * SPRINT_MULT * DT_CAP := by
  have hdt0 : 0 ≤ min raw DT_CAP := le_min hraw (by norm_num [DT_CAP])
  have hdtle : min raw DT_CAP ≤ DT_CAP := min_le_right raw DT_CAP
  have hs0 : 0 ≤ WALK_SPEED *
      (if (getMoveInput s.keys).sprint then SPRINT_MULT else 1) := by
    split <;> norm_num [WALK_SPEED, SPRINT_MULT]
  have hsle : WALK_SPEED *
      (if (getMoveInput s.keys).sprint then SPRINT_MULT else 1) ≤
      WALK_SPEED * SPRINT_MULT := by
    split <;> norm_num [WALK_SPEED, SPRINT_MULT]
  have hz : (getMoveInput s.keys).forward - (getMoveInput s.keys).back = 0 ∨
      (getMoveInput s.keys).forward - (getMoveInput s.keys).back = 1 ∨
      (getMoveInput s.keys).forward - (getMoveInput s.keys).back = -1 := by
    simp only [getMoveInput]
    split <;> split <;> norm_num
  have hx : (getMoveInput s.keys).right - (getMoveInput s.keys).left = 0 ∨
      (getMoveInput s.keys).right - (getMoveInput s.keys).left = 1 ∨
      (getMoveInput s.keys).right - (getMoveInput s.keys).left = -1 := by
    simp only [getMoveInput]
    split <;> split <;> norm_num
  refine ⟨hdtle, ?_, ?_, ?_⟩
  · intro ha
    have ht := animateTick_focus_t fwd look raw s hl hbf ha
    constructor
    · rw [ht]
      ring
    · rw [ht, add_sub_cancel_left]
      exact (div_le_div_iff_of_pos_right hdur).2 hdtle
  · exact moveCoeff_bound _ _ _ hz hs0 hsle hdt0 hdtle
  · exact moveCoeff_bound _ _ _ hx hs0 hsle hdt0 hdtle

/-- Witness for `c10_frame_delta_cap`: a 10-second stall on a loaded
session with forward + right + sprint held and an active focus. -/
theorem c10_frame_delta_cap_witness :
    min 10 DT_CAP ≤ DT_CAP ∧
    ((animateTick fwd0 look0 10 walkSys).focus.t - walkSys.focus.t =
        min 10 DT_CAP / walkSys.focus.dur ∧
      (animateTick fwd0 look0 10 walkSys).focus.t - walkSys.focus.t ≤
        DT_CAP / walkSys.focus.dur) ∧
    |((getMoveInput walkSys.keys).forward - (getMoveInput walkSys.keys).back) *
        (WALK_SPEED *
          (if (getMoveInput walkSys.keys).sprint then SPRINT_MULT else 1)) *
        min 10 DT_CAP| ≤ WALK_SPEED * SPRINT_MULT * DT_CAP ∧
    |((getMoveInput walkSys.keys).right - (getMoveInput walkSys.keys).left) *
        (WALK_SPEED *
          (if (getMoveInput walkSys.keys).sprint then SPRINT_MULT else 1)) *
        min 10 DT_CAP| ≤ WALK_SPEED * SPRINT_MULT * DT_CAP := by
  have h := c10_frame_delta_cap fwd0 look0 10 walkSys (by norm_num) rfl rfl
    (by show (0 : ℚ) < 11/20; norm_num)
  exact ⟨h.1, h.2.1 (by rfl), h.2.2.1, h.2.2.2⟩

end KumoRoom
